import Mathlib

/-!
Verification development for the ccx multi-protocol LLM reverse proxy.

This file shallowly embeds the parts of the Go source that the claims
C1..C10 are about:

* the per-(baseURL, apiKey) metrics engine
  (`internal/metrics/channel_metrics.go`),
* the failed-key cooldown cache and key selection
  (`internal/config/config_chat.go`),
* the channel scheduler (`internal/scheduler/channel_scheduler.go`),
* the in-channel failover executor (`TryUpstreamWithAllKeys`),
* the Chat handler's Claude translation and SSE streaming
  (`internal/handlers/chat/handler.go`).

Time is modelled as `Int` nanoseconds, Go `float64` rates as `ℚ`, Go maps
as association lists with unique keys, and Go byte strings as `String` or
`List Char`.  Every definition is translated from the Go source; the few
places where the deciding Go code is not part of the provided sources are
marked `Modelled from the spec:` in their doc comment.
-/

namespace CCX

/-- Generic association-list lookup, modelling a read of a Go `map`.
Returns the value stored at the first (and, by map semantics, only)
occurrence of the key. -/
def getA {κ β : Type} [DecidableEq κ] : List (κ × β) → κ → Option β
  | [], _ => none
  | (k', v') :: rest, k => if k' = k then some v' else getA rest k

/-- Generic association-list store, modelling a write `m[k] = v` to a Go
`map`: overwrites the existing entry or appends a new one. -/
def setA {κ β : Type} [DecidableEq κ] : List (κ × β) → κ → β → List (κ × β)
  | [], k, v => [(k, v)]
  | (k', v') :: rest, k, v =>
      if k' = k then (k, v) :: rest else (k', v') :: setA rest k v

theorem getA_setA_same {κ β : Type} [DecidableEq κ]
    (m : List (κ × β)) (k : κ) (v : β) : getA (setA m k v) k = some v := by
  induction m with
  | nil => simp [getA, setA]
  | cons hd tl ih =>
      obtain ⟨k', v'⟩ := hd
      by_cases h : k' = k
      · simp [getA, setA, h]
      · simp [getA, setA, h, ih]

theorem getA_setA_ne {κ β : Type} [DecidableEq κ]
    (m : List (κ × β)) (k k₂ : κ) (v : β) (hne : k ≠ k₂) :
    getA (setA m k v) k₂ = getA m k₂ := by
  induction m with
  | nil => simp [getA, setA, hne]
  | cons hd tl ih =>
      obtain ⟨k', v'⟩ := hd
      by_cases h : k' = k
      · subst h
        simp [getA, setA, hne]
      · simp [getA, setA, h, ih]

/-! ## Metrics engine data model (`internal/metrics/channel_metrics.go`) -/

/-- Go `RequestRecord`: one timestamped request in a key's 24h history. -/
structure RequestRecord where
  model : String
  timestamp : Int
  success : Bool
  inputTokens : Int
  outputTokens : Int
  cacheCreationInputTokens : Int
  cacheReadInputTokens : Int
deriving Repr, DecidableEq

/-- Go `PersistentRecord`: the shape enqueued to the persistence store. -/
structure PersistentRecord where
  metricsKey : String
  baseURL : String
  keyMask : String
  timestamp : Int
  success : Bool
  inputTokens : Int
  outputTokens : Int
  cacheCreationTokens : Int
  cacheReadTokens : Int
  apiType : String
  model : String
deriving Repr, DecidableEq

/-- Go `KeyMetrics`: per-(baseURL, apiKey) row.  The Go
`pendingHistoryIdx map[uint64]int` is an association list from request ID
to the reserved slot index in `requestHistory`. -/
structure KeyMetrics where
  metricsKey : String
  baseURL : String
  keyMask : String
  requestCount : Int
  successCount : Int
  failureCount : Int
  consecutiveFailures : Int
  activeRequests : Int
  lastSuccessAt : Option Int
  lastFailureAt : Option Int
  circuitBrokenAt : Option Int
  recentResults : List Bool
  requestHistory : List RequestRecord
  pendingHistoryIdx : List (Nat × Nat)
deriving Repr, DecidableEq

/-- Go `MetricsManager` (one engine per apiType).  `storeQueue` models the
sequence of `store.AddRecord` calls issued so far (the persistence write
buffer); Go `failureThreshold float64` is a rational. -/
structure MetricsManager where
  keyMetrics : List (String × KeyMetrics)
  windowSize : Nat
  failureThreshold : ℚ
  nextRequestID : Nat
  apiType : String
  storeQueue : List PersistentRecord
deriving Repr, DecidableEq

/-- Go `generateMetricsKey`: the source computes
`hex(sha256(baseURL + "|" + apiKey))[:16]`.  The digest is modelled by the
preimage string itself, keeping the injectivity on which the engine's
identity scheme relies (spec §9: identity derivation must be pure and
deterministic). -/
def generateMetricsKey (baseURL apiKey : String) : String :=
  baseURL ++ "|" ++ apiKey

/-- Go `utils.MaskAPIKey`, used only for display fields; modelled as the
identity on the key (its exact masking is irrelevant to every claim). -/
def maskAPIKey (apiKey : String) : String := apiKey

/-- 24 hours in nanoseconds (Go `24 * time.Hour`). -/
def day : Int := 86400000000000

/-- Fresh row built by Go `getOrCreateKey` when the identity is missing. -/
def newKeyMetrics (baseURL apiKey : String) : KeyMetrics :=
  { metricsKey := generateMetricsKey baseURL apiKey
    baseURL := baseURL
    keyMask := maskAPIKey apiKey
    requestCount := 0
    successCount := 0
    failureCount := 0
    consecutiveFailures := 0
    activeRequests := 0
    lastSuccessAt := none
    lastFailureAt := none
    circuitBrokenAt := none
    recentResults := []
    requestHistory := []
    pendingHistoryIdx := [] }

/-- Go `getOrCreateKey`: fetch the row for this identity, creating it when
absent.  Returns the (possibly unchanged) row; the caller stores it back. -/
def getOrCreateKey (m : MetricsManager) (baseURL apiKey : String) : KeyMetrics :=
  match getA m.keyMetrics (generateMetricsKey baseURL apiKey) with
  | some km => km
  | none => newKeyMetrics baseURL apiKey

/-- Go `appendToWindowKey`: append one outcome to the sliding window and
trim the front to keep at most `windowSize` samples. -/
def appendToWindowKey (windowSize : Nat) (recentResults : List Bool) (success : Bool) : List Bool :=
  let r := recentResults ++ [success]
  if windowSize < r.length then r.drop 1 else r

/-- Go `calculateKeyFailureRateInternal`: failure rate over the sliding
window, `0` when the window is empty. -/
def calculateKeyFailureRateInternal (recentResults : List Bool) : ℚ :=
  if recentResults.length = 0 then 0
  else ((recentResults.filter (fun s => !s)).length : ℚ) / (recentResults.length : ℚ)

/-- Go `isKeyCircuitBroken` / `ShouldSuspendKey` body: at least
`max(3, windowSize/2)` samples and failure rate at or above the threshold. -/
def isKeyCircuitBroken (m : MetricsManager) (km : KeyMetrics) : Bool :=
  let minRequests := max 3 (m.windowSize / 2)
  if km.recentResults.length < minRequests then false
  else decide (m.failureThreshold ≤ calculateKeyFailureRateInternal km.recentResults)

/-- Go `ShouldSuspendKey`: `false` for a missing row, otherwise the
circuit condition. -/
def shouldSuspendKey (m : MetricsManager) (baseURL apiKey : String) : Bool :=
  match getA m.keyMetrics (generateMetricsKey baseURL apiKey) with
  | none => false
  | some km => isKeyCircuitBroken m km

/-- Go `cleanupHistoryLocked`: drop records older than 24h (everything
before the first record with `Timestamp.After(cutoff)`), delete pending
entries that pointed into the dropped prefix and shift the survivors. -/
def cleanupHistory (now : Int) (km : KeyMetrics) : KeyMetrics :=
  if km.requestHistory = [] then km
  else
    let cutoff := now - day
    match km.requestHistory.findIdx? (fun r => cutoff < r.timestamp) with
    | some newStart =>
        if 0 < newStart then
          { km with
            requestHistory := km.requestHistory.drop newStart
            pendingHistoryIdx :=
              (km.pendingHistoryIdx.filter (fun p => newStart ≤ p.2)).map
                (fun p => (p.1, p.2 - newStart)) }
        else km
    | none =>
        { km with requestHistory := [], pendingHistoryIdx := [] }

/-- Go `RecordRequestConnectedAt`: reserve a history slot (success
provisionally `true`), record its index under a fresh request ID, then run
the 24h cleanup.  Returns the updated engine and the request ID. -/
def recordRequestConnectedAt (m : MetricsManager) (baseURL apiKey model : String)
    (timestamp now : Int) : MetricsManager × Nat :=
  let km := getOrCreateKey m baseURL apiKey
  let requestID := m.nextRequestID + 1
  let rec' : RequestRecord :=
    { model := model, timestamp := timestamp, success := true
      inputTokens := 0, outputTokens := 0
      cacheCreationInputTokens := 0, cacheReadInputTokens := 0 }
  let km := { km with
    requestHistory := km.requestHistory ++ [rec']
    pendingHistoryIdx := setA km.pendingHistoryIdx requestID km.requestHistory.length }
  let km := cleanupHistory now km
  ({ m with
      nextRequestID := requestID
      keyMetrics := setA m.keyMetrics (generateMetricsKey baseURL apiKey) km },
   requestID)

/-- Go `RecordRequestFinalizeClientCancel`: count the request, leave every
failure-oriented field and the sliding window alone, remove the reserved
slot from history, shift the other pending indices that were above it, and
persist nothing.  Missing row or missing/out-of-range slot: no-op. -/
def recordRequestFinalizeClientCancel (m : MetricsManager) (baseURL apiKey : String)
    (requestID : Nat) : MetricsManager :=
  let mk := generateMetricsKey baseURL apiKey
  match getA m.keyMetrics mk with
  | none => m
  | some km =>
      match getA km.pendingHistoryIdx requestID with
      | none => m
      | some idx =>
          if km.requestHistory.length ≤ idx then m
          else
            let km' := { km with
              pendingHistoryIdx :=
                ((km.pendingHistoryIdx.filter (fun p => p.1 ≠ requestID)).map
                  (fun p => if idx < p.2 then (p.1, p.2 - 1) else p))
              requestCount := km.requestCount + 1
              requestHistory := km.requestHistory.eraseIdx idx }
            { m with keyMetrics := setA m.keyMetrics mk km' }

/-! ### Pending-map lemmas -/

theorem getA_filterNe_map_self (l : List (Nat × Nat)) (rid : Nat) (g : Nat → Nat) :
    getA ((l.filter (fun p => p.1 ≠ rid)).map (fun p => (p.1, g p.2))) rid = none := by
  induction l with
  | nil => simp [getA]
  | cons hd tl ih =>
      obtain ⟨k, v⟩ := hd
      by_cases h : k = rid
      · simpa [List.filter, h] using ih
      · simpa [List.filter, h, getA] using ih

theorem getA_filterNe_map_other (l : List (Nat × Nat)) (rid r : Nat) (g : Nat → Nat)
    (hne : r ≠ rid) :
    getA ((l.filter (fun p => p.1 ≠ rid)).map (fun p => (p.1, g p.2))) r =
      (getA l r).map g := by
  induction l with
  | nil => simp [getA]
  | cons hd tl ih =>
      obtain ⟨k, v⟩ := hd
      by_cases h : k = rid
      · subst h
        have : k ≠ r := fun hkr => hne hkr.symm
        simpa [List.filter, getA, this] using ih
      · by_cases hkr : k = r
        · subst hkr
          simp [List.filter, h, getA]
        · simpa [List.filter, h, getA, hkr] using ih

/-- **C1.** For every (baseURL, apiKey) row and every request ID whose
pending slot still exists, `RecordRequestFinalizeClientCancel` increments
`RequestCount` by exactly one, leaves `ConsecutiveFailures`, the sliding
window, `SuccessCount` and `FailureCount` unchanged, removes the reserved
record from `requestHistory`, decrements by one every other pending index
that was greater than the removed slot's index (leaving the rest as they
were), enqueues no persistent record, and touches no other row. -/
theorem finalizeClientCancel_spec (m : MetricsManager) (baseURL apiKey : String)
    (rid : Nat) (km : KeyMetrics) (idx : Nat)
    (hkm : getA m.keyMetrics (generateMetricsKey baseURL apiKey) = some km)
    (hp : getA km.pendingHistoryIdx rid = some idx)
    (hlt : idx < km.requestHistory.length) :
    ∃ km',
      getA (recordRequestFinalizeClientCancel m baseURL apiKey rid).keyMetrics
          (generateMetricsKey baseURL apiKey) = some km' ∧
      km'.requestCount = km.requestCount + 1 ∧
      km'.consecutiveFailures = km.consecutiveFailures ∧
      km'.recentResults = km.recentResults ∧
      km'.successCount = km.successCount ∧
      km'.failureCount = km.failureCount ∧
      km'.circuitBrokenAt = km.circuitBrokenAt ∧
      km'.requestHistory = km.requestHistory.eraseIdx idx ∧
      getA km'.pendingHistoryIdx rid = none ∧
      (∀ r : Nat, r ≠ rid →
        getA km'.pendingHistoryIdx r =
          (getA km.pendingHistoryIdx r).map (fun i => if idx < i then i - 1 else i)) ∧
      (recordRequestFinalizeClientCancel m baseURL apiKey rid).storeQueue = m.storeQueue ∧
      (∀ k : String, k ≠ generateMetricsKey baseURL apiKey →
        getA (recordRequestFinalizeClientCancel m baseURL apiKey rid).keyMetrics k =
          getA m.keyMetrics k) := by
  have hnotle : ¬ km.requestHistory.length ≤ idx := by omega
  refine ⟨{ km with
      pendingHistoryIdx :=
        ((km.pendingHistoryIdx.filter (fun p => p.1 ≠ rid)).map
          (fun p => if idx < p.2 then (p.1, p.2 - 1) else p))
      requestCount := km.requestCount + 1
      requestHistory := km.requestHistory.eraseIdx idx }, ?_, rfl, rfl, rfl, rfl, rfl, rfl,
    rfl, ?_, ?_, ?_, ?_⟩
  · simp only [recordRequestFinalizeClientCancel, hkm, hp, if_neg hnotle]
    exact getA_setA_same ..
  · have heq :
        (fun p : Nat × Nat => if idx < p.2 then (p.1, p.2 - 1) else p) =
          (fun p : Nat × Nat => (p.1, if idx < p.2 then p.2 - 1 else p.2)) := by
      funext p
      by_cases h : idx < p.2 <;> simp [h]
    rw [heq]
    exact getA_filterNe_map_self km.pendingHistoryIdx rid
      (fun i => if idx < i then i - 1 else i)
  · intro r hr
    have heq :
        (fun p : Nat × Nat => if idx < p.2 then (p.1, p.2 - 1) else p) =
          (fun p : Nat × Nat => (p.1, if idx < p.2 then p.2 - 1 else p.2)) := by
      funext p
      by_cases h : idx < p.2 <;> simp [h]
    rw [heq]
    exact getA_filterNe_map_other km.pendingHistoryIdx rid r
      (fun i => if idx < i then i - 1 else i) hr
  · simp only [recordRequestFinalizeClientCancel, hkm, hp, if_neg hnotle]
  · intro k hk
    simp only [recordRequestFinalizeClientCancel, hkm, hp, if_neg hnotle]
    exact getA_setA_ne _ _ _ _ fun h => hk h.symm

/-- Concrete engine state used to witness the hypotheses of C1: one row
for ("https://u", "k") with one reserved history slot under request ID 7. -/
def witnessRecord : RequestRecord :=
  { model := "claude-3", timestamp := 100, success := true
    inputTokens := 0, outputTokens := 0
    cacheCreationInputTokens := 0, cacheReadInputTokens := 0 }

/-- Concrete row for the C1 witness. -/
def witnessKM : KeyMetrics :=
  { newKeyMetrics "https://u" "k" with
    requestHistory := [witnessRecord]
    pendingHistoryIdx := [(7, 0)]
    consecutiveFailures := 2
    recentResults := [false, true] }

/-- Concrete engine for the C1 witness. -/
def witnessMgr : MetricsManager :=
  { keyMetrics := [(generateMetricsKey "https://u" "k", witnessKM)]
    windowSize := 10
    failureThreshold := 1/2
    nextRequestID := 7
    apiType := "messages"
    storeQueue := [] }

/-- Witness for C1 at a concrete engine state. -/
theorem finalizeClientCancel_spec_witness :
    (getA witnessMgr.keyMetrics (generateMetricsKey "https://u" "k") = some witnessKM ∧
      getA witnessKM.pendingHistoryIdx 7 = some 0 ∧
      0 < witnessKM.requestHistory.length) ∧
    ∃ km',
      getA (recordRequestFinalizeClientCancel witnessMgr "https://u" "k" 7).keyMetrics
          (generateMetricsKey "https://u" "k") = some km' ∧
      km'.requestCount = witnessKM.requestCount + 1 ∧
      km'.consecutiveFailures = witnessKM.consecutiveFailures ∧
      km'.recentResults = witnessKM.recentResults ∧
      km'.successCount = witnessKM.successCount ∧
      km'.failureCount = witnessKM.failureCount ∧
      km'.circuitBrokenAt = witnessKM.circuitBrokenAt ∧
      km'.requestHistory = witnessKM.requestHistory.eraseIdx 0 ∧
      getA km'.pendingHistoryIdx 7 = none ∧
      (∀ r : Nat, r ≠ 7 →
        getA km'.pendingHistoryIdx r =
          (getA witnessKM.pendingHistoryIdx r).map (fun i => if 0 < i then i - 1 else i)) ∧
      (recordRequestFinalizeClientCancel witnessMgr "https://u" "k" 7).storeQueue =
        witnessMgr.storeQueue ∧
      (∀ k : String, k ≠ generateMetricsKey "https://u" "k" →
        getA (recordRequestFinalizeClientCancel witnessMgr "https://u" "k" 7).keyMetrics k =
          getA witnessMgr.keyMetrics k) :=
  ⟨⟨by decide, by decide, by decide⟩,
    finalizeClientCancel_spec witnessMgr "https://u" "k" 7 witnessKM 0
      (by decide) (by decide) (by decide)⟩

/-! ### History-cleanup lemmas (C3) -/

theorem getA_eq_none_of_no_key {κ β : Type} [DecidableEq κ] (l : List (κ × β)) (k : κ)
    (h : ∀ p ∈ l, p.1 ≠ k) : getA l k = none := by
  induction l with
  | nil => rfl
  | cons hd tl ih =>
      obtain ⟨k', v'⟩ := hd
      have hk' : k' ≠ k := h (k', v') (List.mem_cons_self _ _)
      simpa [getA, hk'] using ih fun p hp => h p (List.mem_cons_of_mem _ hp)

theorem eq_of_mem_nodup_keys {κ β : Type} [DecidableEq κ] (l : List (κ × β))
    (h : (l.map Prod.fst).Nodup) {p q : κ × β} (hp : p ∈ l) (hq : q ∈ l)
    (hk : p.1 = q.1) : p = q := by
  induction l with
  | nil => cases hp
  | cons hd tl ih =>
      rw [List.map_cons, List.nodup_cons] at h
      rcases List.mem_cons.mp hp with hp1 | hp2 <;>
        rcases List.mem_cons.mp hq with hq1 | hq2
      · exact hp1.trans hq1.symm
      · subst hp1
        exfalso
        apply h.1
        rw [hk]
        exact List.mem_map_of_mem Prod.fst hq2
      · subst hq1
        exfalso
        apply h.1
        rw [← hk]
        exact List.mem_map_of_mem Prod.fst hp2
      · exact ih h.2 hp2 hq2

/-- **C3.** After the 24-hour history cleanup, there is an eviction count
`evict` such that: the surviving history is exactly the old history with
its first `evict` records removed; the pending map holds exactly the old
entries whose index survived, each decreased by `evict`; every pending
entry that pointed at an evicted record is gone; and every surviving
pending index is in bounds and identifies the same record it identified
before the cleanup. -/
theorem cleanupHistory_spec (now : Int) (km : KeyMetrics)
    (hin : ∀ p ∈ km.pendingHistoryIdx, p.2 < km.requestHistory.length)
    (hnodup : (km.pendingHistoryIdx.map Prod.fst).Nodup) :
    ∃ evict : Nat,
      (cleanupHistory now km).requestHistory = km.requestHistory.drop evict ∧
      (∀ p : Nat × Nat, p ∈ (cleanupHistory now km).pendingHistoryIdx ↔
        ∃ q ∈ km.pendingHistoryIdx, evict ≤ q.2 ∧ p = (q.1, q.2 - evict)) ∧
      (∀ q ∈ km.pendingHistoryIdx, q.2 < evict →
        getA (cleanupHistory now km).pendingHistoryIdx q.1 = none) ∧
      (∀ p ∈ (cleanupHistory now km).pendingHistoryIdx,
        p.2 < (cleanupHistory now km).requestHistory.length ∧
        (cleanupHistory now km).requestHistory[p.2]? = km.requestHistory[p.2 + evict]?) := by
  by_cases hemp : km.requestHistory = []
  · have hpend : km.pendingHistoryIdx = [] := by
      cases hpd : km.pendingHistoryIdx with
      | nil => rfl
      | cons a l =>
          have ha := hin a (by rw [hpd]; exact List.mem_cons_self a l)
          rw [hemp] at ha
          simp at ha
    have hck : cleanupHistory now km = km := by
      simp [cleanupHistory, hemp]
    refine ⟨0, ?_, ?_, ?_, ?_⟩ <;> rw [hck]
    · simp
    · intro p
      rw [hpend]
      simp
    · intro q hq hlt
      rw [hpend] at hq
      cases hq
    · intro p hp
      rw [hpend] at hp
      cases hp
  · rcases hfi : km.requestHistory.findIdx? (fun r => decide (now - day < r.timestamp)) with
      _ | newStart
    · -- every record expired: history and pending are cleared
      have hck : cleanupHistory now km =
          { km with requestHistory := [], pendingHistoryIdx := [] } := by
        simp only [cleanupHistory, if_neg hemp, hfi]
      refine ⟨km.requestHistory.length, ?_, ?_, ?_, ?_⟩ <;> rw [hck]
      · simp
      · intro p
        simp only [List.not_mem_nil, false_iff]
        rintro ⟨q, hq, hle, -⟩
        exact absurd (hin q hq) (by omega)
      · intro q hq hlt
        rfl
      · intro p hp
        cases hp
    · by_cases hpos : 0 < newStart
      · have hck : cleanupHistory now km =
            { km with
              requestHistory := km.requestHistory.drop newStart
              pendingHistoryIdx :=
                (km.pendingHistoryIdx.filter (fun p => newStart ≤ p.2)).map
                  (fun p => (p.1, p.2 - newStart)) } := by
          simp only [cleanupHistory, if_neg hemp, hfi, if_pos hpos]
        refine ⟨newStart, ?_, ?_, ?_, ?_⟩
        · rw [hck]
        · intro p
          rw [hck]
          dsimp only
          constructor
          · intro hp
            rcases List.mem_map.mp hp with ⟨q, hq, hqe⟩
            rcases List.mem_filter.mp hq with ⟨hq1, hq2⟩
            exact ⟨q, hq1, by simpa using hq2, hqe.symm⟩
          · rintro ⟨q, hq, hle, rfl⟩
            exact List.mem_map.mpr ⟨q, List.mem_filter.mpr ⟨hq, by simpa using hle⟩, rfl⟩
        · intro q hq hlt
          rw [hck]
          dsimp only
          refine getA_eq_none_of_no_key _ _ ?_
          intro p hp hpq
          rcases List.mem_map.mp hp with ⟨q', hq', hq'e⟩
          rcases List.mem_filter.mp hq' with ⟨hq'1, hq'2⟩
          have hq'p : q'.1 = p.1 := by rw [← hq'e]
          have heqq := eq_of_mem_nodup_keys km.pendingHistoryIdx hnodup hq'1 hq
            (hq'p.trans hpq)
          subst heqq
          simp only [decide_eq_true_eq] at hq'2
          omega
        · intro p hp
          rw [hck] at hp ⊢
          dsimp only at hp ⊢
          rcases List.mem_map.mp hp with ⟨q, hq, hqe⟩
          rcases List.mem_filter.mp hq with ⟨hq1, hq2⟩
          have hqlt := hin q hq1
          have hle : newStart ≤ q.2 := by simpa using hq2
          have hp2 : p.2 = q.2 - newStart := by rw [← hqe]
          constructor
          · rw [List.length_drop]
            omega
          · rw [List.getElem?_drop]
            congr 1
            omega
      · have hz : newStart = 0 := by omega
        subst hz
        have hck : cleanupHistory now km = km := by
          simp only [cleanupHistory, if_neg hemp, hfi, if_neg hpos]
        refine ⟨0, ?_, ?_, ?_, ?_⟩
        · rw [hck]
          simp
        · intro p
          rw [hck]
          constructor
          · intro hp
            exact ⟨p, hp, Nat.zero_le _, by simp⟩
          · rintro ⟨q, hq, -, rfl⟩
            simpa using hq
        · intro q hq hlt
          omega
        · intro p hp
          rw [hck] at hp ⊢
          exact ⟨hin p hp, by simp⟩

/-- Witness for C3 at the concrete engine row `witnessKM`. -/
theorem cleanupHistory_spec_witness :
    ((∀ p ∈ witnessKM.pendingHistoryIdx, p.2 < witnessKM.requestHistory.length) ∧
      (witnessKM.pendingHistoryIdx.map Prod.fst).Nodup) ∧
    ∃ evict : Nat,
      (cleanupHistory 200 witnessKM).requestHistory = witnessKM.requestHistory.drop evict ∧
      (∀ p : Nat × Nat, p ∈ (cleanupHistory 200 witnessKM).pendingHistoryIdx ↔
        ∃ q ∈ witnessKM.pendingHistoryIdx, evict ≤ q.2 ∧ p = (q.1, q.2 - evict)) ∧
      (∀ q ∈ witnessKM.pendingHistoryIdx, q.2 < evict →
        getA (cleanupHistory 200 witnessKM).pendingHistoryIdx q.1 = none) ∧
      (∀ p ∈ (cleanupHistory 200 witnessKM).pendingHistoryIdx,
        p.2 < (cleanupHistory 200 witnessKM).requestHistory.length ∧
        (cleanupHistory 200 witnessKM).requestHistory[p.2]? =
          witnessKM.requestHistory[p.2 + evict]?) :=
  ⟨⟨by decide, by decide⟩, cleanupHistory_spec 200 witnessKM (by decide) (by decide)⟩

/-! ## Failed-key cache and key selection (`internal/config/config_chat.go`) -/

/-- Go `FailedKey`: cooldown entry for one `apiType:apiKey`. -/
structure FailedKey where
  timestamp : Int
  failureCount : Int
deriving Repr, DecidableEq

/-- Go `UpstreamConfig` (the fields the claims depend on). -/
structure UpstreamConfig where
  name : String
  baseURL : String
  baseURLs : List String
  apiKeys : List String
  serviceType : String
  priority : Int
  status : String
  promotionUntil : Option Int
deriving Repr, DecidableEq

/-- Go `ConfigManager` (the failed-key cache part). -/
structure ConfigManager where
  failedKeysCache : List (String × FailedKey)
  keyRecoveryTime : Int
  maxFailureCount : Int
deriving Repr, DecidableEq

/-- Go `failedKeyCacheKey`: composite cache key `apiType:apiKey`. -/
def failedKeyCacheKey (apiType apiKey : String) : String :=
  apiType ++ ":" ++ apiKey

/-- Go `MarkKeyAsFailed`: bump the failure count and refresh the timestamp
of the `apiType:apiKey` entry, creating it with count 1 when absent. -/
def markKeyAsFailed (cm : ConfigManager) (apiKey apiType : String) (now : Int) : ConfigManager :=
  let ck := failedKeyCacheKey apiType apiKey
  match getA cm.failedKeysCache ck with
  | some f =>
      let fk : FailedKey := { timestamp := now, failureCount := f.failureCount + 1 }
      { cm with failedKeysCache := setA cm.failedKeysCache ck fk }
  | none =>
      let fk : FailedKey := { timestamp := now, failureCount := 1 }
      { cm with failedKeysCache := setA cm.failedKeysCache ck fk }

/-- Go `isKeyFailed` / `IsKeyFailed`: an entry exists under
`apiType:apiKey` and is younger than its recovery interval, which doubles
once the failure count exceeds `maxFailureCount`. -/
def isKeyFailed (cm : ConfigManager) (apiKey apiType : String) (now : Int) : Bool :=
  match getA cm.failedKeysCache (failedKeyCacheKey apiType apiKey) with
  | none => false
  | some f =>
      let recoveryTime :=
        if cm.maxFailureCount < f.failureCount then cm.keyRecoveryTime * 2
        else cm.keyRecoveryTime
      decide (now - f.timestamp < recoveryTime)

/-- Go `GetNextAPIKey` (pure failover selection).  `none` models the error
returns.  A single-key upstream returns its key before the failed-key
filters are even computed. -/
def getNextAPIKey (cm : ConfigManager) (upstream : UpstreamConfig)
    (failedKeys : List String) (apiType : String) (now : Int) : Option String :=
  if upstream.apiKeys = [] then none
  else if upstream.apiKeys.length = 1 then upstream.apiKeys.head?
  else
    let availableKeys := upstream.apiKeys.filter
      (fun k => !(failedKeys.contains k) && !(isKeyFailed cm k apiType now))
    match availableKeys with
    | selectedKey :: _ => some selectedKey
    | [] =>
        let acc := upstream.apiKeys.foldl
          (fun acc k =>
            if failedKeys.contains k then acc
            else
              match getA cm.failedKeysCache (failedKeyCacheKey apiType k) with
              | some f => if f.timestamp < acc.2 then (k, f.timestamp) else acc
              | none => acc)
          ("", now)
        if acc.1 ≠ "" then some acc.1 else none

/-! ### String-append cancellation (needed for apiType isolation) -/

theorem strAppendRightCancel (a b s : String) (h : a ++ s = b ++ s) : a = b := by
  have hd : a.data ++ s.data = b.data ++ s.data := by
    have := congrArg String.data h
    simpa [String.data_append] using this
  exact String.ext (List.append_cancel_right hd)

theorem failedKeyCacheKey_ne (a b k : String) (hne : a ≠ b) :
    failedKeyCacheKey a k ≠ failedKeyCacheKey b k := by
  intro h
  apply hne
  have h1 : (a ++ ":") ++ k = (b ++ ":") ++ k := by
    simpa [failedKeyCacheKey, String.append_assoc] using h
  have h2 : a ++ ":" = b ++ ":" := strAppendRightCancel _ _ _ h1
  exact strAppendRightCancel _ _ _ h2

/-- **C6.** `IsKeyFailed` is true iff a cache entry exists under the
composite key `apiType:apiKey` and is younger than its recovery interval
(the base recovery time, doubled exactly when the failure count exceeds
the configured maximum); and an entry created by `MarkKeyAsFailed` under
one apiType never changes `IsKeyFailed` for the same key under another. -/
theorem isKeyFailed_spec (cm : ConfigManager) (apiKey apiType apiType2 : String)
    (now now2 : Int) (hne : apiType ≠ apiType2) :
    (isKeyFailed cm apiKey apiType now = true ↔
      ∃ f : FailedKey,
        getA cm.failedKeysCache (failedKeyCacheKey apiType apiKey) = some f ∧
        now - f.timestamp <
          (if cm.maxFailureCount < f.failureCount then cm.keyRecoveryTime * 2
           else cm.keyRecoveryTime)) ∧
    isKeyFailed (markKeyAsFailed cm apiKey apiType now) apiKey apiType2 now2 =
      isKeyFailed cm apiKey apiType2 now2 := by
  constructor
  · cases hget : getA cm.failedKeysCache (failedKeyCacheKey apiType apiKey) with
    | none => simp [isKeyFailed, hget]
    | some f => simp [isKeyFailed, hget]
  · have hkne := failedKeyCacheKey_ne apiType apiType2 apiKey hne
    cases hget : getA cm.failedKeysCache (failedKeyCacheKey apiType apiKey) with
    | none =>
        simp only [markKeyAsFailed, hget, isKeyFailed]
        rw [getA_setA_ne _ _ _ _ hkne]
    | some f =>
        simp only [markKeyAsFailed, hget, isKeyFailed]
        rw [getA_setA_ne _ _ _ _ hkne]

/-- Witness for C6: a cache with one entry for `messages:k1`, queried and
re-marked across the apiTypes `messages` and `chat`. -/
theorem isKeyFailed_spec_witness :
    ("messages" : String) ≠ "chat" ∧
    ((isKeyFailed
        { failedKeysCache := [(failedKeyCacheKey "messages" "k1",
            { timestamp := 50, failureCount := 2 })]
          keyRecoveryTime := 100
          maxFailureCount := 3 } "k1" "messages" 60 = true ↔
      ∃ f : FailedKey,
        getA [(failedKeyCacheKey "messages" "k1",
            ({ timestamp := 50, failureCount := 2 } : FailedKey))]
          (failedKeyCacheKey "messages" "k1") = some f ∧
        60 - f.timestamp < (if (3 : Int) < f.failureCount then 100 * 2 else 100)) ∧
      isKeyFailed (markKeyAsFailed
          { failedKeysCache := [(failedKeyCacheKey "messages" "k1",
              { timestamp := 50, failureCount := 2 })]
            keyRecoveryTime := 100
            maxFailureCount := 3 } "k1" "messages" 60) "k1" "chat" 70 =
        isKeyFailed
          { failedKeysCache := [(failedKeyCacheKey "messages" "k1",
              { timestamp := 50, failureCount := 2 })]
            keyRecoveryTime := 100
            maxFailureCount := 3 } "k1" "chat" 70) :=
  ⟨by decide,
    isKeyFailed_spec
      { failedKeysCache := [(failedKeyCacheKey "messages" "k1",
          { timestamp := 50, failureCount := 2 })]
        keyRecoveryTime := 100
        maxFailureCount := 3 } "k1" "messages" "chat" 60 70 (by decide)⟩

/-- **C10.** On an upstream with exactly one API key, `GetNextAPIKey`
returns that key for every per-request failed-key set and every failed-key
cache state: neither is consulted. -/
theorem getNextAPIKey_single_spec (cm : ConfigManager) (upstream : UpstreamConfig)
    (failedKeys : List String) (apiType k : String) (now : Int)
    (hk : upstream.apiKeys = [k]) :
    getNextAPIKey cm upstream failedKeys apiType now = some k := by
  simp [getNextAPIKey, hk]

/-- Witness for C10: a single-key upstream whose only key is both in the
per-request failed set and in cooldown in the cache, yet still selected. -/
theorem getNextAPIKey_single_spec_witness :
    ({ name := "c", baseURL := "https://u", baseURLs := [], apiKeys := ["k1"]
       serviceType := "claude", priority := 1, status := "active"
       promotionUntil := none } : UpstreamConfig).apiKeys = ["k1"] ∧
    getNextAPIKey
      { failedKeysCache := [(failedKeyCacheKey "messages" "k1",
          { timestamp := 50, failureCount := 5 })]
        keyRecoveryTime := 100
        maxFailureCount := 3 }
      { name := "c", baseURL := "https://u", baseURLs := [], apiKeys := ["k1"]
        serviceType := "claude", priority := 1, status := "active"
        promotionUntil := none }
      ["k1"] "messages" 60 = some "k1" :=
  ⟨by decide,
    getNextAPIKey_single_spec
      { failedKeysCache := [(failedKeyCacheKey "messages" "k1",
          { timestamp := 50, failureCount := 5 })]
        keyRecoveryTime := 100
        maxFailureCount := 3 }
      { name := "c", baseURL := "https://u", baseURLs := [], apiKeys := ["k1"]
        serviceType := "claude", priority := 1, status := "active"
        promotionUntil := none }
      ["k1"] "messages" "k1" 60 (by decide)⟩

/-! ## Channel scheduler (`internal/scheduler/channel_scheduler.go`) -/

/-- Go `warmup`/metrics helper used by the scheduler: concatenation of the
sliding windows of all active keys of a channel (the loop bodies of
`IsChannelHealthyWithKeys` and `CalculateChannelFailureRate`). -/
def aggregateRecentResults (m : MetricsManager) (baseURL : String)
    (activeKeys : List String) : List Bool :=
  activeKeys.foldl
    (fun acc k =>
      match getA m.keyMetrics (generateMetricsKey baseURL k) with
      | some km => acc ++ km.recentResults
      | none => acc)
    []

/-- Go `IsChannelHealthyWithKeys`: unhealthy without keys; healthy with no
samples or fewer than `max(3, windowSize/2)` samples; otherwise healthy
iff the aggregated failure rate is below the threshold. -/
def isChannelHealthyWithKeys (m : MetricsManager) (baseURL : String)
    (activeKeys : List String) : Bool :=
  if activeKeys = [] then false
  else
    let totalResults := aggregateRecentResults m baseURL activeKeys
    if totalResults = [] then true
    else if totalResults.length < max 3 (m.windowSize / 2) then true
    else
      decide (((totalResults.filter (fun s => !s)).length : ℚ) / (totalResults.length : ℚ)
        < m.failureThreshold)

/-- Go `CalculateChannelFailureRate`: aggregated failure rate over the
active keys' sliding windows, `0` without keys or samples. -/
def calculateChannelFailureRate (m : MetricsManager) (baseURL : String)
    (activeKeys : List String) : ℚ :=
  if activeKeys = [] then 0
  else
    let totalResults := aggregateRecentResults m baseURL activeKeys
    if totalResults = [] then 0
    else ((totalResults.filter (fun s => !s)).length : ℚ) / (totalResults.length : ℚ)

/-- Modelled from the spec: `config.IsChannelInPromotion` is not among the
provided sources (only its callers are).  Spec §4.5: a channel is in
promotion iff its promotion deadline is set and lies in the future. -/
def isChannelInPromotion (now : Int) (u : UpstreamConfig) : Bool :=
  match u.promotionUntil with
  | some t => decide (now < t)
  | none => false

/-- Go `ChannelInfo` (scheduler-side view of one channel). -/
structure ChannelInfo where
  index : Nat
  name : String
  priority : Int
  status : String
deriving Repr, DecidableEq

/-- Go `getActiveChannels`: every non-disabled channel (status defaulting
to `active`, priority defaulting to the index), sorted by ascending
priority.  Go sorts with the unstable `sort.Slice`; the insertion sort
used here produces one admissible order, and every theorem below is
invariant under permutations of equal priorities. -/
def getActiveChannels (channels : List UpstreamConfig) : List ChannelInfo :=
  let active := channels.enum.filterMap
    (fun p =>
      let status := if p.2.status = "" then "active" else p.2.status
      if status ≠ "disabled" then
        let priority := if p.2.priority = 0 then (p.1 : Int) else p.2.priority
        some { index := p.1, name := p.2.name, priority := priority, status := status }
      else none)
  active.insertionSort (fun a b => a.priority ≤ b.priority)

/-- Go `getUpstreamByIndex`: bounds-checked index into the config list. -/
def getUpstreamByIndex (channels : List UpstreamConfig) (index : Nat) :
    Option UpstreamConfig :=
  channels[index]?

/-- Go `SelectionResult`. -/
structure SelectionResult where
  upstream : UpstreamConfig
  channelIndex : Nat
  reason : String
deriving Repr, DecidableEq

/-- Go `findPromotedChannel`: the first channel in the priority-sorted
active list whose status is `active` and whose upstream is in promotion. -/
def findPromotedChannel (channels : List UpstreamConfig) (now : Int)
    (acs : List ChannelInfo) : Option ChannelInfo :=
  acs.findSome?
    (fun ch =>
      if ch.status ≠ "active" then none
      else
        match getUpstreamByIndex channels ch.index with
        | some upstream => if isChannelInPromotion now upstream then some ch else none
        | none => none)

/-- Step 0 of Go `SelectChannel`: the promotion check.  Returns the
selection when the promoted channel is not failed and has keys; otherwise
control falls through to the next stage. -/
def promotionPick (channels : List UpstreamConfig) (now : Int)
    (failed : List Nat) (acs : List ChannelInfo) : Option SelectionResult :=
  match findPromotedChannel channels now acs with
  | some pch =>
      if failed.contains pch.index then none
      else
        match getUpstreamByIndex channels pch.index with
        | some upstream =>
            if 0 < upstream.apiKeys.length then
              some { upstream := upstream, channelIndex := pch.index
                     reason := "promotion_priority" }
            else none
        | none => none
  | none => none

/-- Step 1 of Go `SelectChannel`: trace affinity.  -/
def affinityPick (channels : List UpstreamConfig) (m : MetricsManager)
    (traceAffinity : List (String × Nat)) (kind userID : String)
    (failed : List Nat) (acs : List ChannelInfo) : Option SelectionResult :=
  if userID = "" then none
  else
    match getA traceAffinity (kind ++ ":" ++ userID) with
    | none => none
    | some preferredIdx =>
        acs.findSome?
          (fun ch =>
            if ch.index = preferredIdx && !(failed.contains preferredIdx) then
              if ch.status ≠ "active" then none
              else
                match getUpstreamByIndex channels preferredIdx with
                | some upstream =>
                    if isChannelHealthyWithKeys m upstream.baseURL upstream.apiKeys then
                      some { upstream := upstream, channelIndex := preferredIdx
                             reason := "trace_affinity" }
                    else none
                | none => none
            else none)

/-- Step 2 of Go `SelectChannel`: priority order over healthy channels. -/
def priorityPick (channels : List UpstreamConfig) (m : MetricsManager)
    (failed : List Nat) (acs : List ChannelInfo) : Option SelectionResult :=
  acs.findSome?
    (fun ch =>
      if failed.contains ch.index then none
      else if ch.status ≠ "active" then none
      else
        match getUpstreamByIndex channels ch.index with
        | none => none
        | some upstream =>
            if upstream.apiKeys = [] then none
            else if !(isChannelHealthyWithKeys m upstream.baseURL upstream.apiKeys) then none
            else
              some { upstream := upstream, channelIndex := ch.index
                     reason := "priority_order" })

/-- One iteration of the Go `selectFallbackChannel` loop: keep the best
candidate, replacing it only on a strictly smaller failure rate (the Go
initial `bestFailureRate` of 2 is modelled by `none`). -/
def fallbackStep (channels : List UpstreamConfig) (m : MetricsManager)
    (failed : List Nat) (best : Option (ChannelInfo × UpstreamConfig × ℚ))
    (ch : ChannelInfo) : Option (ChannelInfo × UpstreamConfig × ℚ) :=
  if failed.contains ch.index then best
  else if ch.status ≠ "active" then best
  else
    match getUpstreamByIndex channels ch.index with
    | none => best
    | some upstream =>
        if upstream.apiKeys = [] then best
        else
          let rate := calculateChannelFailureRate m upstream.baseURL upstream.apiKeys
          let bestRate := match best with | none => (2 : ℚ) | some b => b.2.2
          if rate < bestRate then some (ch, upstream, rate) else best

/-- Step 3 of Go `SelectChannel`: `selectFallbackChannel`. -/
def selectFallbackChannel (channels : List UpstreamConfig) (m : MetricsManager)
    (failed : List Nat) (acs : List ChannelInfo) : Option SelectionResult :=
  match acs.foldl (fallbackStep channels m failed) none with
  | some (ch, upstream, _) =>
      some { upstream := upstream, channelIndex := ch.index, reason := "fallback" }
  | none => none

/-- Go `SelectChannel`: promotion, then trace affinity, then priority
order, then fallback; `none` models the error returns. -/
def selectChannel (channels : List UpstreamConfig) (m : MetricsManager)
    (traceAffinity : List (String × Nat)) (kind userID : String)
    (failed : List Nat) (now : Int) : Option SelectionResult :=
  let acs := getActiveChannels channels
  if acs = [] then none
  else
    match promotionPick channels now failed acs with
    | some r => some r
    | none =>
        match affinityPick channels m traceAffinity kind userID failed acs with
        | some r => some r
        | none =>
            match priorityPick channels m failed acs with
            | some r => some r
            | none => selectFallbackChannel channels m failed acs

/-! ### Promotion overrides health (C4) -/

theorem findSome?_unique {α β : Type} (l : List α) (f : α → Option β) (a : α) (b : β)
    (ha : a ∈ l) (hfa : f a = some b) (hother : ∀ x ∈ l, x ≠ a → f x = none) :
    l.findSome? f = some b := by
  induction l with
  | nil => cases ha
  | cons hd tl ih =>
      by_cases h : hd = a
      · subst h
        simp [List.findSome?_cons, hfa]
      · have hhd : f hd = none := hother hd (List.mem_cons_self _ _) h
        have ha' : a ∈ tl := by
          rcases List.mem_cons.mp ha with h1 | h2
          · exact absurd h1.symm h
          · exact h2
        rw [List.findSome?_cons, hhd]
        exact ih ha' fun x hx hxa => hother x (List.mem_cons_of_mem _ hx) hxa

/-- **C4.** If a channel is in the active list with status `active`, its
promotion deadline is in the future, it is the only such channel (the
config keeps promotion mutually exclusive), it is not in `failedChannels`
and it has at least one API key, then `SelectChannel` returns it with
reason `promotion_priority` — for every metrics state and every
trace-affinity table, so no health check can influence the outcome, even
when the channel's recorded history is 100% failures. -/
theorem selectChannel_promotion_spec (channels : List UpstreamConfig)
    (m : MetricsManager) (ta : List (String × Nat)) (kind userID : String)
    (failed : List Nat) (now : Int) (ch : ChannelInfo) (u : UpstreamConfig)
    (hmem : ch ∈ getActiveChannels channels)
    (hst : ch.status = "active")
    (hu : getUpstreamByIndex channels ch.index = some u)
    (hpromo : isChannelInPromotion now u = true)
    (huniq : ∀ ch' ∈ getActiveChannels channels, ch' ≠ ch → ch'.status = "active" →
      ∀ u', getUpstreamByIndex channels ch'.index = some u' →
        isChannelInPromotion now u' = false)
    (hfail : ch.index ∉ failed)
    (hkeys : u.apiKeys ≠ []) :
    selectChannel channels m ta kind userID failed now =
      some { upstream := u, channelIndex := ch.index, reason := "promotion_priority" } := by
  have hfind : findPromotedChannel channels now (getActiveChannels channels) = some ch := by
    refine findSome?_unique _ _ ch ch hmem ?_ ?_
    · simp [hst, hu, hpromo]
    · intro x hx hxa
      by_cases hxs : x.status = "active"
      · cases hux : getUpstreamByIndex channels x.index with
        | none => simp [hxs, hux]
        | some u' =>
            have := huniq x hx hxa hxs u' hux
            simp [hxs, hux, this]
      · simp [hxs]
  have hne : getActiveChannels channels ≠ [] := List.ne_nil_of_mem hmem
  have hpp : promotionPick channels now failed (getActiveChannels channels) =
      some { upstream := u, channelIndex := ch.index, reason := "promotion_priority" } := by
    rw [promotionPick, hfind]
    simp [hfail, hu, List.length_pos.mpr hkeys]
  rw [selectChannel]
  simp only [if_neg hne, hpp]

/-- Concrete config for the C4 witness: channel 0 is healthy and first by
priority, channel 1 is promoted with a forced 100%-failure history. -/
def promoChannels : List UpstreamConfig :=
  [{ name := "normal", baseURL := "https://normal", baseURLs := [], apiKeys := ["kn"]
     serviceType := "claude", priority := 1, status := "active", promotionUntil := none },
   { name := "promoted", baseURL := "https://promoted", baseURLs := [], apiKeys := ["kp"]
     serviceType := "claude", priority := 2, status := "active"
     promotionUntil := some 1000 }]

/-- Metrics for the C4 witness: the promoted channel's only key has a
window of ten failures (100% failure rate, would fail any health check). -/
def promoMgr : MetricsManager :=
  { keyMetrics := [(generateMetricsKey "https://promoted" "kp",
      { newKeyMetrics "https://promoted" "kp" with
        recentResults := [false, false, false, false, false, false, false, false, false, false]
        failureCount := 10, requestCount := 10, consecutiveFailures := 10 })]
    windowSize := 10
    failureThreshold := 1/2
    nextRequestID := 0
    apiType := "messages"
    storeQueue := [] }

/-- The promoted channel as it appears in `getActiveChannels promoChannels`. -/
def promoCh : ChannelInfo :=
  { index := 1, name := "promoted", priority := 2, status := "active" }

/-- Witness for C4: the unhealthy promoted channel is still selected with
reason `promotion_priority`. -/
theorem selectChannel_promotion_spec_witness :
    (promoCh ∈ getActiveChannels promoChannels ∧
      promoCh.status = "active" ∧
      getUpstreamByIndex promoChannels promoCh.index = some (promoChannels.get ⟨1, by decide⟩) ∧
      isChannelInPromotion 0 (promoChannels.get ⟨1, by decide⟩) = true ∧
      isChannelHealthyWithKeys promoMgr "https://promoted" ["kp"] = false ∧
      (1 : Nat) ∉ ([] : List Nat)) ∧
    selectChannel promoChannels promoMgr [] "messages" "user1" [] 0 =
      some { upstream := promoChannels.get ⟨1, by decide⟩, channelIndex := promoCh.index
             reason := "promotion_priority" } :=
  ⟨⟨by decide, by decide, by decide, by decide, by
      simp [isChannelHealthyWithKeys, aggregateRecentResults, getA, promoMgr,
        newKeyMetrics, generateMetricsKey]
      norm_num, by decide⟩,
    selectChannel_promotion_spec promoChannels promoMgr [] "messages" "user1" [] 0
      promoCh (promoChannels.get ⟨1, by decide⟩)
      (by decide) (by decide) (by decide) (by decide)
      (by decide) (by decide) (by decide)⟩

/-! ### Fallback selection (C9) -/

/-- The conditions under which Go `selectFallbackChannel` considers a
channel at all: not failed this request, status exactly `active`, a
resolvable upstream, and at least one key. -/
def fallbackEligible (channels : List UpstreamConfig) (failed : List Nat)
    (ch : ChannelInfo) (u : UpstreamConfig) : Prop :=
  ch.index ∉ failed ∧ ch.status = "active" ∧
    getUpstreamByIndex channels ch.index = some u ∧ u.apiKeys ≠ []

instance (channels : List UpstreamConfig) (failed : List Nat)
    (ch : ChannelInfo) (u : UpstreamConfig) :
    Decidable (fallbackEligible channels failed ch u) := by
  unfold fallbackEligible
  infer_instance

theorem calcChannelFailureRate_le_one (m : MetricsManager) (b : String)
    (keys : List String) : calculateChannelFailureRate m b keys ≤ 1 := by
  unfold calculateChannelFailureRate
  by_cases hk : keys = []
  · simp [hk]
  · simp only [if_neg hk]
    by_cases ht : aggregateRecentResults m b keys = []
    · simp [ht]
    · simp only [if_neg ht]
      have hlen : 0 < (aggregateRecentResults m b keys).length := List.length_pos.mpr ht
      rw [div_le_one (by exact_mod_cast hlen)]
      exact_mod_cast List.length_filter_le _ (aggregateRecentResults m b keys)

/-- Case analysis of one Go fallback-loop iteration: either the channel is
ineligible and the accumulator is kept, or it is eligible and the
accumulator is replaced exactly on a strictly smaller failure rate. -/
theorem fallbackStep_cases (channels : List UpstreamConfig) (m : MetricsManager)
    (failed : List Nat) (acc : Option (ChannelInfo × UpstreamConfig × ℚ))
    (x : ChannelInfo) :
    (fallbackStep channels m failed acc x = acc ∧
      ∀ u, ¬ fallbackEligible channels failed x u) ∨
    ∃ u, fallbackEligible channels failed x u ∧
      ((fallbackStep channels m failed acc x =
          some (x, u, calculateChannelFailureRate m u.baseURL u.apiKeys) ∧
        ∀ c0 u0 r0, acc = some (c0, u0, r0) →
          calculateChannelFailureRate m u.baseURL u.apiKeys < r0) ∨
       (fallbackStep channels m failed acc x = acc ∧
        ∃ c0 u0 r0, acc = some (c0, u0, r0) ∧
          r0 ≤ calculateChannelFailureRate m u.baseURL u.apiKeys)) := by
  by_cases h1 : failed.contains x.index
  · have h1m : x.index ∈ failed := by simpa using h1
    left
    refine ⟨by simp [fallbackStep, h1m], ?_⟩
    rintro u ⟨hnot, -, -, -⟩
    exact hnot h1m
  · have h1m : x.index ∉ failed := by simpa using h1
    by_cases h2 : x.status = "active"
    · cases hu : getUpstreamByIndex channels x.index with
      | none =>
          left
          refine ⟨by simp [fallbackStep, h1m, h2, hu], ?_⟩
          rintro u ⟨-, -, hgu, -⟩
          rw [hu] at hgu
          cases hgu
      | some upstream =>
          by_cases hk : upstream.apiKeys = []
          · left
            refine ⟨by simp [fallbackStep, h1m, h2, hu, hk], ?_⟩
            rintro u ⟨-, -, hgu, hku⟩
            rw [hu] at hgu
            cases hgu
            exact hku hk
          · right
            refine ⟨upstream, ⟨h1m, h2, hu, hk⟩, ?_⟩
            cases hacc : acc with
            | none =>
                left
                constructor
                · have hlt : calculateChannelFailureRate m upstream.baseURL upstream.apiKeys
                      < (2 : ℚ) :=
                    lt_of_le_of_lt (calcChannelFailureRate_le_one m _ _) (by norm_num)
                  simp [fallbackStep, h1m, h2, hu, hk, hlt]
                · intro c0 u0 r0 h
                  cases h
            | some b =>
                obtain ⟨c0, u0, r0⟩ := b
                by_cases hlt : calculateChannelFailureRate m upstream.baseURL upstream.apiKeys
                    < r0
                · left
                  constructor
                  · simp [fallbackStep, h1m, h2, hu, hk, hacc, hlt]
                  · intro c1 u1 r1 h
                    injection h with h
                    simp only [Prod.mk.injEq] at h
                    rcases h with ⟨-, -, h3⟩
                    rw [← h3]
                    exact hlt
                · right
                  refine ⟨by simp [fallbackStep, h1m, h2, hu, hk, hacc, hlt], c0, u0, r0,
                    rfl, le_of_not_lt hlt⟩
    · left
      refine ⟨?_, ?_⟩
      · have h2' : x.status ≠ "active" := h2
        simp [fallbackStep, h2']
      · rintro u ⟨-, hst, -, -⟩
        exact h2 hst

/-- Invariant carried through the Go fallback loop: any candidate in the
accumulator is an eligible channel of `src`, annotated with its own
failure rate. -/
def FallbackAcc (channels : List UpstreamConfig) (m : MetricsManager)
    (failed : List Nat) (src : List ChannelInfo)
    (acc : Option (ChannelInfo × UpstreamConfig × ℚ)) : Prop :=
  ∀ c u r, acc = some (c, u, r) →
    c ∈ src ∧ fallbackEligible channels failed c u ∧
      r = calculateChannelFailureRate m u.baseURL u.apiKeys

theorem fallbackFold_spec (channels : List UpstreamConfig) (m : MetricsManager)
    (failed : List Nat) (src : List ChannelInfo) (l : List ChannelInfo)
    (hsub : ∀ c ∈ l, c ∈ src)
    (acc : Option (ChannelInfo × UpstreamConfig × ℚ))
    (hacc : FallbackAcc channels m failed src acc) :
    FallbackAcc channels m failed src (l.foldl (fallbackStep channels m failed) acc) ∧
    (∀ p, acc = some p → ∃ q, l.foldl (fallbackStep channels m failed) acc = some q) ∧
    (∀ c ∈ l, ∀ u, fallbackEligible channels failed c u →
      ∃ q, l.foldl (fallbackStep channels m failed) acc = some q) ∧
    (∀ c u r, l.foldl (fallbackStep channels m failed) acc = some (c, u, r) →
      (∀ c0 u0 r0, acc = some (c0, u0, r0) → r ≤ r0) ∧
      (∀ c' ∈ l, ∀ u', fallbackEligible channels failed c' u' →
        r ≤ calculateChannelFailureRate m u'.baseURL u'.apiKeys)) := by
  induction l generalizing acc with
  | nil =>
      refine ⟨hacc, ?_, ?_, ?_⟩
      · intro p hp
        exact ⟨p, hp⟩
      · intro c hc
        cases hc
      · intro c u r hr
        refine ⟨?_, ?_⟩
        · intro c0 u0 r0 h0
          rw [List.foldl_nil] at hr
          rw [hr] at h0
          injection h0 with h0
          simp only [Prod.mk.injEq] at h0
          rcases h0 with ⟨-, -, h3⟩
          rw [h3]
        · intro c' hc'
          cases hc'
  | cons x l ih =>
      have hsubl : ∀ c ∈ l, c ∈ src := fun c hc => hsub c (List.mem_cons_of_mem _ hc)
      have hxsrc : x ∈ src := hsub x (List.mem_cons_self _ _)
      rw [List.foldl_cons]
      rcases fallbackStep_cases channels m failed acc x with
        ⟨hstep, hnelig⟩ | ⟨u, huel, hcase⟩
      · -- x ineligible: the accumulator passes through unchanged
        rw [hstep]
        obtain ⟨ih1, ih2, ih3, ih4⟩ := ih hsubl acc hacc
        refine ⟨ih1, ih2, ?_, ?_⟩
        · intro c hc u' hu'
          rcases List.mem_cons.mp hc with rfl | hcl
          · exact absurd hu' (hnelig u')
          · exact ih3 c hcl u' hu'
        · intro c u' r hres
          obtain ⟨ihA, ihB⟩ := ih4 c u' r hres
          refine ⟨ihA, ?_⟩
          intro c' hc' u'' hu''
          rcases List.mem_cons.mp hc' with rfl | hcl
          · exact absurd hu'' (hnelig u'')
          · exact ihB c' hcl u'' hu''
      · rcases hcase with ⟨hrep, hlt0⟩ | ⟨hkeep, c0, u0, r0, hacc0, hge⟩
        · -- x replaces the accumulator with its (strictly smaller) rate
          rw [hrep]
          have hacc' : FallbackAcc channels m failed src
              (some (x, u, calculateChannelFailureRate m u.baseURL u.apiKeys)) := by
            intro c u' r h
            injection h with h
            simp only [Prod.mk.injEq] at h
            rcases h with ⟨h1, h2, h3⟩
            rw [← h1, ← h2, ← h3]
            exact ⟨hxsrc, huel, rfl⟩
          obtain ⟨ih1, ih2, ih3, ih4⟩ := ih hsubl _ hacc'
          refine ⟨ih1, ?_, ?_, ?_⟩
          · intro p hp
            exact ih2 _ rfl
          · intro c hc u' hu'
            exact ih2 _ rfl
          · intro c u' r hres
            obtain ⟨ihA, ihB⟩ := ih4 c u' r hres
            have hrx : r ≤ calculateChannelFailureRate m u.baseURL u.apiKeys :=
              ihA x u _ rfl
            refine ⟨?_, ?_⟩
            · intro c0 u0 r0 h0
              exact le_of_lt (lt_of_le_of_lt hrx (hlt0 c0 u0 r0 h0))
            · intro c' hc' u'' hu''
              rcases List.mem_cons.mp hc' with rfl | hcl
              · have : u'' = u := by
                  have e1 := hu''.2.2.1
                  have e2 := huel.2.2.1
                  rw [e1] at e2
                  injection e2
                rw [this]
                exact hrx
              · exact ihB c' hcl u'' hu''
        · -- x is eligible but not better: the accumulator is kept
          rw [hkeep]
          obtain ⟨ih1, ih2, ih3, ih4⟩ := ih hsubl acc hacc
          refine ⟨ih1, ih2, ?_, ?_⟩
          · intro c hc u' hu'
            rcases List.mem_cons.mp hc with rfl | hcl
            · exact ih2 _ hacc0
            · exact ih3 c hcl u' hu'
          · intro c u' r hres
            obtain ⟨ihA, ihB⟩ := ih4 c u' r hres
            refine ⟨ihA, ?_⟩
            intro c' hc' u'' hu''
            rcases List.mem_cons.mp hc' with rfl | hcl
            · have hu''u : u'' = u := by
                have e1 := hu''.2.2.1
                have e2 := huel.2.2.1
                rw [e1] at e2
                injection e2
              rw [hu''u]
              exact le_trans (ihA c0 u0 r0 hacc0) hge
            · exact ihB c' hcl u'' hu''

/-- **C9 (amended).** When promotion, trace affinity and priority order
all fail to produce a channel, `SelectChannel` returns, with reason
`fallback`, a channel of status exactly `active` (suspended channels are
skipped by the fallback loop), not in `failedChannels`, with at least one
key, whose aggregated failure rate is minimal among all such channels. -/
theorem selectChannel_fallback_spec (channels : List UpstreamConfig) (m : MetricsManager)
    (ta : List (String × Nat)) (kind userID : String) (failed : List Nat) (now : Int)
    (hpromo : promotionPick channels now failed (getActiveChannels channels) = none)
    (haff : affinityPick channels m ta kind userID failed (getActiveChannels channels) = none)
    (hprio : priorityPick channels m failed (getActiveChannels channels) = none)
    (hex : ∃ ch ∈ getActiveChannels channels, ∃ u, fallbackEligible channels failed ch u) :
    ∃ r, selectChannel channels m ta kind userID failed now = some r ∧
      r.reason = "fallback" ∧
      (∃ ch ∈ getActiveChannels channels, ∃ u : UpstreamConfig,
        fallbackEligible channels failed ch u ∧ r.channelIndex = ch.index ∧
        r.upstream = u) ∧
      (∀ ch' ∈ getActiveChannels channels, ∀ u',
        fallbackEligible channels failed ch' u' →
          calculateChannelFailureRate m r.upstream.baseURL r.upstream.apiKeys ≤
            calculateChannelFailureRate m u'.baseURL u'.apiKeys) := by
  obtain ⟨ch0, hch0, u0, hel0⟩ := hex
  have hne : getActiveChannels channels ≠ [] := List.ne_nil_of_mem hch0
  obtain ⟨hAcc, -, hEx, hMin⟩ := fallbackFold_spec channels m failed
    (getActiveChannels channels) (getActiveChannels channels) (fun c hc => hc) none
    (by intro c u r h; cases h)
  obtain ⟨q, hq⟩ := hEx ch0 hch0 u0 hel0
  obtain ⟨c, u, r⟩ := q
  obtain ⟨hcm, hel, hr⟩ := hAcc c u r hq
  obtain ⟨-, hminL⟩ := hMin c u r hq
  refine ⟨{ upstream := u, channelIndex := c.index, reason := "fallback" },
    ?_, rfl, ?_, ?_⟩
  · rw [selectChannel]
    simp only [if_neg hne, hpromo, haff, hprio, selectFallbackChannel, hq]
  · exact ⟨c, hcm, u, hel, rfl, rfl⟩
  · intro ch' hch' u' hel'
    dsimp only
    rw [← hr]
    exact hminL ch' hch' u' hel'

/-- A config whose single channel is suspended (with a key, never failed):
per the spec's definition of "active channel" the fallback rule should
still return it. -/
def suspendedOnly : List UpstreamConfig :=
  [{ name := "s0", baseURL := "https://s", baseURLs := [], apiKeys := ["k"]
     serviceType := "claude", priority := 1, status := "suspended"
     promotionUntil := none }]

/-- A metrics engine with no rows at all. -/
def emptyMgr : MetricsManager :=
  { keyMetrics := [], windowSize := 10, failureThreshold := 1/2
    nextRequestID := 0, apiType := "messages", storeQueue := [] }

/-- **C9 counterexample.** The suspended channel is part of the scheduling
sequence (non-disabled), is not failed and has a key, so by the claim the
fallback rule should select it; the code's `selectFallbackChannel` skips
every non-`active` status and `SelectChannel` returns no channel at all. -/
theorem selectChannel_fallback_counterexample :
    ((getActiveChannels suspendedOnly).length = 1 ∧
      (∀ ch ∈ getActiveChannels suspendedOnly, ch.status = "suspended") ∧
      (∃ ch ∈ getActiveChannels suspendedOnly, ch.index ∉ ([] : List Nat) ∧
        ∃ u, getUpstreamByIndex suspendedOnly ch.index = some u ∧ u.apiKeys ≠ [])) ∧
    selectChannel suspendedOnly emptyMgr [] "messages" "" [] 0 = none := by
  decide

/-- Config for the C9 witness: one active channel. -/
def fbChannels : List UpstreamConfig :=
  [{ name := "f0", baseURL := "https://f", baseURLs := [], apiKeys := ["k"]
     serviceType := "claude", priority := 1, status := "active"
     promotionUntil := none }]

/-- Metrics for the C9 witness: the channel's key has five failures in the
window, so the priority stage rejects it as unhealthy and control reaches
the fallback stage. -/
def fbMgr : MetricsManager :=
  { keyMetrics := [(generateMetricsKey "https://f" "k",
      { newKeyMetrics "https://f" "k" with
        recentResults := [false, false, false, false, false] })]
    windowSize := 10
    failureThreshold := 1/2
    nextRequestID := 0
    apiType := "messages"
    storeQueue := [] }

theorem fbMgr_unhealthy : isChannelHealthyWithKeys fbMgr "https://f" ["k"] = false := by
  simp [isChannelHealthyWithKeys, aggregateRecentResults, fbMgr, newKeyMetrics,
    generateMetricsKey, getA]
  norm_num

/-- Witness for C9 (amended): all three earlier stages fail on the
concrete config and the fallback conclusion holds. -/
theorem selectChannel_fallback_spec_witness :
    (promotionPick fbChannels 0 [] (getActiveChannels fbChannels) = none ∧
      affinityPick fbChannels fbMgr [] "messages" "" [] (getActiveChannels fbChannels) = none ∧
      priorityPick fbChannels fbMgr [] (getActiveChannels fbChannels) = none ∧
      (∃ ch ∈ getActiveChannels fbChannels, ∃ u,
        fallbackEligible fbChannels [] ch u)) ∧
    ∃ r, selectChannel fbChannels fbMgr [] "messages" "" [] 0 = some r ∧
      r.reason = "fallback" ∧
      (∃ ch ∈ getActiveChannels fbChannels, ∃ u : UpstreamConfig,
        fallbackEligible fbChannels [] ch u ∧ r.channelIndex = ch.index ∧
        r.upstream = u) ∧
      (∀ ch' ∈ getActiveChannels fbChannels, ∀ u',
        fallbackEligible fbChannels [] ch' u' →
          calculateChannelFailureRate fbMgr r.upstream.baseURL r.upstream.apiKeys ≤
            calculateChannelFailureRate fbMgr u'.baseURL u'.apiKeys) := by
  have hacs : getActiveChannels fbChannels =
      [{ index := 0, name := "f0", priority := 1, status := "active" }] := by decide
  have hprio : priorityPick fbChannels fbMgr [] (getActiveChannels fbChannels) = none := by
    rw [hacs]
    simp [priorityPick, List.findSome?_cons, getUpstreamByIndex, fbChannels, fbMgr_unhealthy]
  refine ⟨⟨by decide, by decide, hprio, ?_⟩, ?_⟩
  · exact ⟨{ index := 0, name := "f0", priority := 1, status := "active" },
      by decide, fbChannels.head (by decide), by decide⟩
  · exact selectChannel_fallback_spec fbChannels fbMgr [] "messages" "" [] 0
      (by decide) (by decide) hprio
      ⟨{ index := 0, name := "f0", priority := 1, status := "active" },
        by decide, fbChannels.head (by decide), by decide⟩

/-! ## Historical stats (`GetHistoricalStats`, C5) -/

/-- Go `bucketData`. -/
structure BucketData where
  requestCount : Int
  successCount : Int
  failureCount : Int
deriving Repr, DecidableEq

/-- Go `HistoryDataPoint` (success rate as a rational, 0–100). -/
structure HistoryDataPoint where
  timestamp : Int
  requestCount : Int
  successCount : Int
  failureCount : Int
  successRate : ℚ
deriving Repr, DecidableEq

/-- In-place update of one bucket, modelling `buckets[offset]`'s pointer
mutation. -/
def updateAt {α : Type} : List α → Nat → (α → α) → List α
  | [], _, _ => []
  | a :: rest, 0, f => f a :: rest
  | a :: rest, n + 1, f => a :: updateAt rest n f

/-- Go `time.Time.Truncate(d)`: round down to a multiple of `d` since the
zero time. -/
def truncTime (t d : Int) : Int := t.fdiv d * d

/-- The record history the stats query ranges over: concatenation of the
request histories of the given keys' rows, in key order. -/
def collectHistory (m : MetricsManager) (baseURL : String)
    (activeKeys : List String) : List RequestRecord :=
  activeKeys.foldl
    (fun acc k =>
      match getA m.keyMetrics (generateMetricsKey baseURL k) with
      | some km => acc ++ km.requestHistory
      | none => acc)
    []

/-- The record-bucketing loop of Go `GetHistoricalStats`: a record in
`[startTime, endTime)` whose integer-division offset is inside
`[0, numPoints)` increments its bucket; any other record is skipped. -/
def bumpBucket (success : Bool) (b : BucketData) : BucketData :=
  { requestCount := b.requestCount + 1
    successCount := if success then b.successCount + 1 else b.successCount
    failureCount := if success then b.failureCount else b.failureCount + 1 }

def bucketizeRecords (startTime endTime interval : Int) (numPoints : Nat)
    (records : List RequestRecord) (buckets : List BucketData) : List BucketData :=
  records.foldl
    (fun bs r =>
      if startTime ≤ r.timestamp ∧ r.timestamp < endTime ∧
          0 ≤ (r.timestamp - startTime) / interval ∧
          (r.timestamp - startTime) / interval < (numPoints : Int) then
        updateAt bs ((r.timestamp - startTime) / interval).toNat (bumpBucket r.success)
      else bs)
    buckets

/-- The result-building loop of Go `GetHistoricalStats` (`i` is the index
of the first remaining bucket).  An empty bucket reports success rate 0. -/
def buildPointsFrom (startTime interval : Int) (i : Nat) :
    List BucketData → List HistoryDataPoint
  | [] => []
  | b :: rest =>
      { timestamp := startTime + (i : Int) * interval
        requestCount := b.requestCount
        successCount := b.successCount
        failureCount := b.failureCount
        successRate :=
          if 0 < b.requestCount then (b.successCount : ℚ) / (b.requestCount : ℚ) * 100
          else 0 } ::
      buildPointsFrom startTime interval (i + 1) rest

/-- Go `GetHistoricalStats`: align `[startTime, endTime)` to interval
boundaries, allocate `int(duration/interval)` (floored, minimum 1) plus
one buckets, bucket the records by integer division, and report per-bucket
counts with success rate 0 for empty buckets. -/
def getHistoricalStats (m : MetricsManager) (baseURL : String)
    (activeKeys : List String) (duration interval now : Int) :
    List HistoryDataPoint :=
  if interval ≤ 0 ∨ duration ≤ 0 then []
  else
    let startTime := truncTime (now - duration) interval
    let endTime := truncTime now interval + interval
    let numPointsI := duration / interval
    let numPointsI := if numPointsI ≤ 0 then 1 else numPointsI
    let numPoints := numPointsI.toNat + 1
    let buckets := bucketizeRecords startTime endTime interval numPoints
      (collectHistory m baseURL activeKeys)
      (List.replicate numPoints { requestCount := 0, successCount := 0, failureCount := 0 })
    buildPointsFrom startTime interval 0 buckets

theorem length_updateAt {α : Type} (l : List α) (i : Nat) (f : α → α) :
    (updateAt l i f).length = l.length := by
  induction l generalizing i with
  | nil => rfl
  | cons a rest ih =>
      cases i with
      | zero => rfl
      | succ n => simpa [updateAt] using ih n

theorem getElem?_updateAt {α : Type} (l : List α) (i j : Nat) (f : α → α) :
    (updateAt l i f)[j]? = if i = j then (l[j]?).map f else l[j]? := by
  induction l generalizing i j with
  | nil => simp [updateAt]
  | cons a rest ih =>
      cases i with
      | zero =>
          cases j with
          | zero => simp [updateAt]
          | succ jj => simp [updateAt]
      | succ n =>
          cases j with
          | zero => simp [updateAt]
          | succ jj => simpa [updateAt] using ih n jj

/-- The record guard of the bucketing loop, specialised to bucket `j`. -/
def bucketPred (startTime endTime interval : Int) (numPoints j : Nat)
    (r : RequestRecord) : Bool :=
  decide (startTime ≤ r.timestamp ∧ r.timestamp < endTime ∧
    0 ≤ (r.timestamp - startTime) / interval ∧
    (r.timestamp - startTime) / interval < (numPoints : Int) ∧
    ((r.timestamp - startTime) / interval).toNat = j)

theorem length_bucketizeRecords (s e i : Int) (n : Nat)
    (records : List RequestRecord) (bs : List BucketData) :
    (bucketizeRecords s e i n records bs).length = bs.length := by
  induction records generalizing bs with
  | nil => rfl
  | cons r rest ih =>
      have hstep : bucketizeRecords s e i n (r :: rest) bs =
          bucketizeRecords s e i n rest
            (if s ≤ r.timestamp ∧ r.timestamp < e ∧
                0 ≤ (r.timestamp - s) / i ∧ (r.timestamp - s) / i < (n : Int) then
              updateAt bs ((r.timestamp - s) / i).toNat (bumpBucket r.success)
            else bs) := rfl
      rw [hstep]
      by_cases h : s ≤ r.timestamp ∧ r.timestamp < e ∧
          0 ≤ (r.timestamp - s) / i ∧ (r.timestamp - s) / i < (n : Int)
      · rw [if_pos h]
        exact (ih _).trans (length_updateAt ..)
      · rw [if_neg h]
        exact ih bs

theorem bucketize_requestCount (s e i : Int) (n : Nat)
    (records : List RequestRecord) (bs : List BucketData) (j : Nat)
    (b : BucketData) (hb : bs[j]? = some b) :
    ∃ b', (bucketizeRecords s e i n records bs)[j]? = some b' ∧
      b'.requestCount =
        b.requestCount + ((records.filter (bucketPred s e i n j)).length : Int) := by
  induction records generalizing bs b with
  | nil => exact ⟨b, hb, by simp⟩
  | cons r rest ih =>
      have hstep : bucketizeRecords s e i n (r :: rest) bs =
          bucketizeRecords s e i n rest
            (if s ≤ r.timestamp ∧ r.timestamp < e ∧
                0 ≤ (r.timestamp - s) / i ∧ (r.timestamp - s) / i < (n : Int) then
              updateAt bs ((r.timestamp - s) / i).toNat (bumpBucket r.success)
            else bs) := rfl
      rw [hstep]
      by_cases h : s ≤ r.timestamp ∧ r.timestamp < e ∧
          0 ≤ (r.timestamp - s) / i ∧ (r.timestamp - s) / i < (n : Int)
      · rw [if_pos h]
        by_cases hj : ((r.timestamp - s) / i).toNat = j
        · have hp : bucketPred s e i n j r = true := by
            unfold bucketPred
            exact decide_eq_true ⟨h.1, h.2.1, h.2.2.1, h.2.2.2, hj⟩
          have hb' : (updateAt bs ((r.timestamp - s) / i).toNat
              (bumpBucket r.success))[j]? = some (bumpBucket r.success b) := by
            rw [getElem?_updateAt, if_pos hj, hb]
            rfl
          obtain ⟨b', hres, hrc⟩ := ih _ _ hb'
          refine ⟨b', hres, ?_⟩
          rw [hrc, List.filter_cons, hp]
          simp only [bumpBucket, if_true, List.length_cons]
          push_cast
          ring
        · have hp : bucketPred s e i n j r = false := by
            unfold bucketPred
            simp only [decide_eq_false_iff_not]
            rintro ⟨-, -, -, -, hj'⟩
            exact hj hj'
          have hb' : (updateAt bs ((r.timestamp - s) / i).toNat
              (bumpBucket r.success))[j]? = some b := by
            rw [getElem?_updateAt, if_neg hj, hb]
          obtain ⟨b', hres, hrc⟩ := ih _ _ hb'
          refine ⟨b', hres, ?_⟩
          rw [hrc, List.filter_cons, hp]
          simp
      · rw [if_neg h]
        have hp : bucketPred s e i n j r = false := by
          unfold bucketPred
          simp only [decide_eq_false_iff_not]
          rintro ⟨h1, h2, h3, h4, -⟩
          exact h ⟨h1, h2, h3, h4⟩
        obtain ⟨b', hres, hrc⟩ := ih _ _ hb
        refine ⟨b', hres, ?_⟩
        rw [hrc, List.filter_cons, hp]
        simp

theorem length_buildPointsFrom (s i : Int) (k : Nat) (bs : List BucketData) :
    (buildPointsFrom s i k bs).length = bs.length := by
  induction bs generalizing k with
  | nil => rfl
  | cons b rest ih => simpa [buildPointsFrom] using ih (k + 1)

theorem getElem?_buildPointsFrom (s i : Int) (k j : Nat) (bs : List BucketData) :
    (buildPointsFrom s i k bs)[j]? = (bs[j]?).map
      (fun b =>
        { timestamp := s + ((k + j : Nat) : Int) * i
          requestCount := b.requestCount
          successCount := b.successCount
          failureCount := b.failureCount
          successRate :=
            if 0 < b.requestCount then (b.successCount : ℚ) / (b.requestCount : ℚ) * 100
            else 0 }) := by
  induction bs generalizing k j with
  | nil => simp [buildPointsFrom]
  | cons b rest ih =>
      cases j with
      | zero => simp [buildPointsFrom]
      | succ jj =>
          rw [buildPointsFrom]
          have := ih (k + 1) jj
          simp only [List.getElem?_cons_succ]
          rw [this]
          have harith : k + 1 + jj = k + (jj + 1) := by omega
          rw [harith]

/-- **C5 (amended).** For positive duration and interval the bucketed
query returns `⌊duration/interval⌋` (minimum 1) plus one data points — not
`⌈duration/interval⌉ + 1` — whose first timestamp is `now − duration`
truncated to the interval.  Each history record with timestamp in
`[startTime, endTime)` whose bucket index `⌊(ts − startTime)/interval⌋` is
below the point count is counted in exactly that bucket (records whose
index reaches the point count are dropped), and every bucket containing
zero records reports success rate 0, not 100. -/
theorem getHistoricalStats_spec (m : MetricsManager) (baseURL : String)
    (activeKeys : List String) (duration interval now : Int)
    (hd : 0 < duration) (hi : 0 < interval) :
    (getHistoricalStats m baseURL activeKeys duration interval now).length =
      (max (duration / interval) 1).toNat + 1 ∧
    (∀ j, j < (max (duration / interval) 1).toNat + 1 →
      ∃ p, (getHistoricalStats m baseURL activeKeys duration interval now)[j]? = some p ∧
        p.timestamp = truncTime (now - duration) interval + (j : Int) * interval ∧
        p.requestCount = (((collectHistory m baseURL activeKeys).filter
          (bucketPred (truncTime (now - duration) interval)
            (truncTime now interval + interval) interval
            ((max (duration / interval) 1).toNat + 1) j)).length : Int) ∧
        (p.requestCount = 0 → p.successRate = 0)) := by
  have hcond : ¬(interval ≤ 0 ∨ duration ≤ 0) := by omega
  have hnum : (if duration / interval ≤ 0 then 1 else duration / interval) =
      max (duration / interval) 1 := by omega
  have hunf : getHistoricalStats m baseURL activeKeys duration interval now =
      buildPointsFrom (truncTime (now - duration) interval) interval 0
        (bucketizeRecords (truncTime (now - duration) interval)
          (truncTime now interval + interval) interval
          ((max (duration / interval) 1).toNat + 1)
          (collectHistory m baseURL activeKeys)
          (List.replicate ((max (duration / interval) 1).toNat + 1)
            { requestCount := 0, successCount := 0, failureCount := 0 })) := by
    simp only [getHistoricalStats, if_neg hcond, hnum]
  constructor
  · rw [hunf, length_buildPointsFrom, length_bucketizeRecords, List.length_replicate]
  · intro j hj
    have hrep : (List.replicate ((max (duration / interval) 1).toNat + 1)
        ({ requestCount := 0, successCount := 0, failureCount := 0 } : BucketData))[j]? =
        some { requestCount := 0, successCount := 0, failureCount := 0 } := by
      simp [List.getElem?_replicate, hj]
    obtain ⟨b', hres, hrc⟩ := bucketize_requestCount
      (truncTime (now - duration) interval) (truncTime now interval + interval) interval
      ((max (duration / interval) 1).toNat + 1)
      (collectHistory m baseURL activeKeys) _ j _ hrep
    rw [hunf]
    rw [getElem?_buildPointsFrom, hres]
    refine ⟨_, rfl, by simp, ?_, ?_⟩
    · simpa using hrc
    · intro h0
      dsimp only at h0 ⊢
      rw [if_neg (by omega)]

/-- **C5 counterexample.** With duration 90 and interval 60 (both
positive, interval not dividing duration) the claim demands
`⌈90/60⌉ + 1 = 3` data points; the code computes `int(90/60) + 1 = 2`. -/
theorem getHistoricalStats_count_counterexample :
    ((0 : Int) < 90 ∧ (0 : Int) < 60) ∧
    (getHistoricalStats emptyMgr "https://u" [] 90 60 0).length = 2 ∧
    ((90 + 60 - 1) / 60 + 1 : Int) = 3 := by
  decide

/-- Engine with one key row holding two history records, for the C5
witness. -/
def histMgr : MetricsManager :=
  { keyMetrics := [(generateMetricsKey "https://h" "k",
      { newKeyMetrics "https://h" "k" with
        requestHistory :=
          [{ model := "m1", timestamp := 10, success := true, inputTokens := 1
             outputTokens := 2, cacheCreationInputTokens := 0, cacheReadInputTokens := 0 },
           { model := "m1", timestamp := 70, success := false, inputTokens := 0
             outputTokens := 0, cacheCreationInputTokens := 0, cacheReadInputTokens := 0 }] })]
    windowSize := 10
    failureThreshold := 1/2
    nextRequestID := 0
    apiType := "messages"
    storeQueue := [] }

/-- Witness for C5 (amended) at duration 120, interval 60, now 130. -/
theorem getHistoricalStats_spec_witness :
    ((0 : Int) < 120 ∧ (0 : Int) < 60) ∧
    ((getHistoricalStats histMgr "https://h" ["k"] 120 60 130).length =
      (max ((120 : Int) / 60) 1).toNat + 1 ∧
    (∀ j, j < (max ((120 : Int) / 60) 1).toNat + 1 →
      ∃ p, (getHistoricalStats histMgr "https://h" ["k"] 120 60 130)[j]? = some p ∧
        p.timestamp = truncTime (130 - 120) 60 + (j : Int) * 60 ∧
        p.requestCount = (((collectHistory histMgr "https://h" ["k"]).filter
          (bucketPred (truncTime (130 - 120) 60) (truncTime 130 60 + 60) 60
            ((max ((120 : Int) / 60) 1).toNat + 1) j)).length : Int) ∧
        (p.requestCount = 0 → p.successRate = 0))) :=
  ⟨⟨by decide, by decide⟩,
    getHistoricalStats_spec histMgr "https://h" ["k"] 120 60 130 (by decide) (by decide)⟩

/-! ## Claude→Chat SSE streaming (`streamClaudeToChat`, C7)

The upstream body is a sequence of read chunks of bytes (`List Char`);
`strings.Split(data, "\n")` is `splitLines`; the JSON decoding and event
dispatch of the loop body are abstracted by a `parse` oracle — the
`data: [DONE]` check happens on the raw line before any JSON parsing, so
every theorem below holds for every parser behaviour. -/

/-- `strings.Split(data, "\n")`: split on every newline, keeping empty
parts; the result always has at least one element. -/
def splitLines : List Char → List (List Char)
  | [] => [[]]
  | c :: rest =>
      if c = '\n' then [] :: splitLines rest
      else
        match splitLines rest with
        | [] => [[c]]
        | l :: ls => (c :: l) :: ls

theorem splitLines_ne_nil (s : List Char) : splitLines s ≠ [] := by
  cases s with
  | nil => simp [splitLines]
  | cons c rest =>
      rw [splitLines]
      by_cases h : c = '\n'
      · simp [h]
      · rw [if_neg h]
        cases splitLines rest <;> simp

/-- `lines[len(lines)-1]`, the (possibly incomplete) trailing line kept as
the remainder for the next read. -/
def lastLine : List (List Char) → List Char
  | [] => []
  | [x] => x
  | _ :: x :: xs => lastLine (x :: xs)

/-- What the Go JSON dispatch extracts from one non-`[DONE]` data line. -/
inductive ClaudeEvent : Type
  | contentBlockDelta (textDelta : Option (List Char))
  | messageDelta (usage : Option (Int × Int))
  | messageStart (inputTokens : Option Int)
  | other
deriving Repr, DecidableEq

/-- One write of `streamClaudeToChat` to the client: the literal
`data: [DONE]\n\n` line, a `chat.completion.chunk` with a text delta, or
the final chunk with `finish_reason: stop` (and usage when present). -/
inductive ChatOut : Type
  | done
  | delta (text : List Char)
  | stop (usage : Option (Int × Int))
deriving Repr, DecidableEq

/-- The prefix `"data: "`. -/
def dataTag : List Char := ['d', 'a', 't', 'a', ':', ' ']

/-- The payload `"[DONE]"`. -/
def doneTag : List Char := ['[', 'D', 'O', 'N', 'E', ']']

/-- Per-request translation state: the `[DONE]` dedup flag, the pending
usage accumulator, the line remainder, and the writes so far. -/
structure ClaudeStreamState where
  doneSent : Bool
  totalUsage : Option (Int × Int)
  remainder : List Char
  out : List ChatOut
deriving Repr, DecidableEq

/-- The body of the per-line loop of Go `streamClaudeToChat`. -/
def stepLine (parse : List Char → Option ClaudeEvent)
    (st : ClaudeStreamState) (line : List Char) : ClaudeStreamState :=
  if line.take 6 = dataTag then
    let jsonData := line.drop 6
    if jsonData = doneTag then
      { st with out := st.out ++ [ChatOut.done], doneSent := true }
    else
      match parse jsonData with
      | none => st
      | some (ClaudeEvent.contentBlockDelta (some t)) =>
          { st with out := st.out ++ [ChatOut.delta t] }
      | some (ClaudeEvent.contentBlockDelta none) => st
      | some (ClaudeEvent.messageDelta usage) =>
          { st with
            out := st.out ++ [ChatOut.stop usage]
            totalUsage := match usage with | some u => some u | none => st.totalUsage }
      | some (ClaudeEvent.messageStart ti) =>
          { st with
            totalUsage := match ti with | some t => some (t, 0) | none => st.totalUsage }
      | some ClaudeEvent.other => st
  else st

/-- One `resp.Body.Read` iteration of Go `streamClaudeToChat`: prepend the
remainder, split into lines, keep the last (possibly incomplete) line as
the new remainder, and run the per-line loop on the complete lines. -/
def stepChunk (parse : List Char → Option ClaudeEvent)
    (st : ClaudeStreamState) (chunk : List Char) : ClaudeStreamState :=
  let lines := splitLines (st.remainder ++ chunk)
  let st' := lines.dropLast.foldl (stepLine parse) st
  { st' with remainder := lastLine lines }

/-- Go `streamClaudeToChat` over a whole upstream body (the list of read
chunks): process every chunk, then append `data: [DONE]` exactly when none
was forwarded from the upstream. -/
def streamClaudeToChat (parse : List Char → Option ClaudeEvent)
    (chunks : List (List Char)) : ClaudeStreamState :=
  let st := chunks.foldl (stepChunk parse)
    { doneSent := false, totalUsage := none, remainder := [], out := [] }
  if st.doneSent then st else { st with out := st.out ++ [ChatOut.done] }

/-- The number of complete `data: [DONE]` lines in the whole upstream
stream (the trailing line without a newline is never processed). -/
def upstreamDoneLines (chunks : List (List Char)) : Nat :=
  ((splitLines chunks.flatten).dropLast.filter
    (fun l => decide (l = dataTag ++ doneTag))).length

/-! ### Splitting algebra for the line buffer (C7) -/

/-- Merge a prefix into the first line of a split. -/
def consHead (x : List Char) : List (List Char) → List (List Char)
  | [] => [x]
  | y :: ys => (x ++ y) :: ys

/-- How the split of a concatenation glues the two splits together. -/
def glue (xs ys : List (List Char)) : List (List Char) :=
  xs.dropLast ++ consHead (lastLine xs) ys

theorem consHead_ne_nil (x : List Char) (l : List (List Char)) : consHead x l ≠ [] := by
  cases l <;> simp [consHead]

theorem lastLine_cons_of_ne_nil (x : List Char) (xs : List (List Char)) (h : xs ≠ []) :
    lastLine (x :: xs) = lastLine xs := by
  cases xs with
  | nil => exact absurd rfl h
  | cons y ys => rfl

theorem splitLines_cons_nl (s : List Char) :
    splitLines ('\n' :: s) = [] :: splitLines s := by
  rw [splitLines, if_pos rfl]

theorem splitLines_cons_ne (c : Char) (s : List Char) (hc : ¬ c = '\n') :
    splitLines (c :: s) = consHead [c] (splitLines s) := by
  rw [splitLines, if_neg hc]
  cases h : splitLines s with
  | nil => exact absurd h (splitLines_ne_nil s)
  | cons l ls => simp [consHead]

theorem glue_single (x : List Char) (ys : List (List Char)) :
    glue [x] ys = consHead x ys := by
  simp [glue, lastLine]

theorem glue_nil_split (ys : List (List Char)) (hys : ys ≠ []) : glue [[]] ys = ys := by
  cases ys with
  | nil => exact absurd rfl hys
  | cons y ys' => simp [glue, lastLine, consHead]

theorem glue_cons_empty (xs ys : List (List Char)) (hxs : xs ≠ []) :
    glue ([] :: xs) ys = [] :: glue xs ys := by
  cases xs with
  | nil => exact absurd rfl hxs
  | cons x xs' =>
      rw [glue, glue, lastLine_cons_of_ne_nil _ _ (by simp)]
      rw [List.dropLast_cons₂]
      rfl

theorem glue_consHead (c : Char) (xs ys : List (List Char)) (hxs : xs ≠ [])
    (hys : ys ≠ []) :
    glue (consHead [c] xs) ys = consHead [c] (glue xs ys) := by
  cases xs with
  | nil => exact absurd rfl hxs
  | cons x0 xs' =>
      cases xs' with
      | nil =>
          cases ys with
          | nil => exact absurd rfl hys
          | cons y ys' =>
              simp [consHead, glue, lastLine]
      | cons x1 xs'' =>
          rw [show consHead [c] (x0 :: x1 :: xs'') = (c :: x0) :: x1 :: xs'' from by
            simp [consHead]]
          rw [glue, glue]
          rw [lastLine_cons_of_ne_nil (c :: x0) (x1 :: xs'') (by simp),
            lastLine_cons_of_ne_nil x0 (x1 :: xs'') (by simp)]
          rw [List.dropLast_cons₂, List.dropLast_cons₂]
          simp [consHead]

theorem splitLines_append (a b : List Char) :
    splitLines (a ++ b) = glue (splitLines a) (splitLines b) := by
  induction a with
  | nil =>
      rw [List.nil_append, show splitLines ([] : List Char) = [[]] from rfl,
        glue_nil_split _ (splitLines_ne_nil b)]
  | cons c a' ih =>
      by_cases hc : c = '\n'
      · subst hc
        rw [List.cons_append, splitLines_cons_nl, splitLines_cons_nl, ih,
          glue_cons_empty _ _ (splitLines_ne_nil a')]
      · rw [List.cons_append, splitLines_cons_ne c _ hc, splitLines_cons_ne c _ hc, ih,
          glue_consHead c _ _ (splitLines_ne_nil a') (splitLines_ne_nil b)]

theorem splitLines_no_nl (s : List Char) (h : '\n' ∉ s) : splitLines s = [s] := by
  induction s with
  | nil => rfl
  | cons c rest ih =>
      have hc : ¬ c = '\n' := fun hcc => h (hcc ▸ List.mem_cons_self c rest)
      rw [splitLines_cons_ne c rest hc, ih fun hr => h (List.mem_cons_of_mem c hr)]
      rfl

theorem no_nl_lastLine_splitLines (s : List Char) :
    '\n' ∉ lastLine (splitLines s) := by
  induction s with
  | nil => simp [splitLines, lastLine]
  | cons c rest ih =>
      by_cases hc : c = '\n'
      · subst hc
        rw [splitLines_cons_nl,
          lastLine_cons_of_ne_nil _ _ (splitLines_ne_nil rest)]
        exact ih
      · rw [splitLines_cons_ne c rest hc]
        cases hsp : splitLines rest with
        | nil => exact absurd hsp (splitLines_ne_nil rest)
        | cons x xs =>
            rw [hsp] at ih
            cases xs with
            | nil =>
                simp only [consHead, lastLine]
                intro hmem
                rcases List.mem_cons.mp hmem with h1 | h2
                · exact hc h1.symm
                · exact ih (by simpa [lastLine] using h2)
            | cons x1 xs' =>
                simp only [consHead]
                rw [lastLine_cons_of_ne_nil _ _ (by simp)]
                rw [lastLine_cons_of_ne_nil _ _ (by simp)] at ih
                exact ih

/-! ### Counting `data: [DONE]` writes (C7) -/

theorem line_eq_done_iff (line : List Char) :
    (line.take 6 = dataTag ∧ line.drop 6 = doneTag) ↔ line = dataTag ++ doneTag := by
  constructor
  · rintro ⟨h1, h2⟩
    rw [← List.take_append_drop 6 line, h1, h2]
  · rintro rfl
    constructor
    · rw [show (6 : Nat) = dataTag.length from rfl]
      exact List.take_left ..
    · rw [show (6 : Nat) = dataTag.length from rfl]
      exact List.drop_left ..

theorem stepLine_done (parse : List Char → Option ClaudeEvent)
    (st : ClaudeStreamState) (line : List Char) :
    (stepLine parse st line).out.count ChatOut.done =
      st.out.count ChatOut.done + (if line = dataTag ++ doneTag then 1 else 0) ∧
    (stepLine parse st line).doneSent =
      (st.doneSent || decide (line = dataTag ++ doneTag)) ∧
    (stepLine parse st line).remainder = st.remainder := by
  by_cases h1 : line.take 6 = dataTag
  · by_cases h2 : line.drop 6 = doneTag
    · have heq : line = dataTag ++ doneTag := (line_eq_done_iff line).mp ⟨h1, h2⟩
      subst heq
      refine ⟨?_, ?_, ?_⟩ <;> simp [stepLine, h1, h2]
    · have hne : ¬ line = dataTag ++ doneTag := fun he =>
        h2 (((line_eq_done_iff line).mpr he).2)
      cases hp : parse (line.drop 6) with
      | none => refine ⟨?_, ?_, ?_⟩ <;> simp [stepLine, h1, h2, hp, hne]
      | some ev =>
          cases ev with
          | contentBlockDelta td =>
              cases td with
              | none => refine ⟨?_, ?_, ?_⟩ <;> simp [stepLine, h1, h2, hp, hne]
              | some t => refine ⟨?_, ?_, ?_⟩ <;> simp [stepLine, h1, h2, hp, hne]
          | messageDelta u => refine ⟨?_, ?_, ?_⟩ <;> simp [stepLine, h1, h2, hp, hne]
          | messageStart ti => refine ⟨?_, ?_, ?_⟩ <;> simp [stepLine, h1, h2, hp, hne]
          | other => refine ⟨?_, ?_, ?_⟩ <;> simp [stepLine, h1, h2, hp, hne]
  · have hne : ¬ line = dataTag ++ doneTag := fun he =>
      h1 ((line_eq_done_iff line).mpr he).1
    refine ⟨?_, ?_, ?_⟩ <;> simp [stepLine, h1, hne]

theorem foldLines_done (parse : List Char → Option ClaudeEvent)
    (lines : List (List Char)) (st : ClaudeStreamState) :
    ((lines.foldl (stepLine parse) st).out.count ChatOut.done =
      st.out.count ChatOut.done +
        (lines.filter (fun l => decide (l = dataTag ++ doneTag))).length) ∧
    (lines.foldl (stepLine parse) st).doneSent =
      (st.doneSent || lines.any (fun l => decide (l = dataTag ++ doneTag))) ∧
    (lines.foldl (stepLine parse) st).remainder = st.remainder := by
  induction lines generalizing st with
  | nil => simp
  | cons l rest ih =>
      obtain ⟨h1, h2, h3⟩ := stepLine_done parse st l
      obtain ⟨ih1, ih2, ih3⟩ := ih (stepLine parse st l)
      rw [List.foldl_cons]
      refine ⟨?_, ?_, ?_⟩
      · rw [ih1, h1, List.filter_cons]
        by_cases hd : l = dataTag ++ doneTag
        · rw [hd]
          simp only [eq_self_iff_true, if_true, decide_True, List.length_cons]
          omega
        · simp [hd]
      · rw [ih2, h2, List.any_cons]
        by_cases hd : l = dataTag ++ doneTag <;> simp [hd, Bool.or_assoc]
      · rw [ih3, h3]

theorem foldChunks_done (parse : List Char → Option ClaudeEvent)
    (chunks : List (List Char)) (st : ClaudeStreamState)
    (hr : '\n' ∉ st.remainder) :
    ((chunks.foldl (stepChunk parse) st).out.count ChatOut.done =
      st.out.count ChatOut.done +
        ((splitLines (st.remainder ++ chunks.flatten)).dropLast.filter
          (fun l => decide (l = dataTag ++ doneTag))).length) ∧
    (chunks.foldl (stepChunk parse) st).doneSent =
      (st.doneSent || (splitLines (st.remainder ++ chunks.flatten)).dropLast.any
        (fun l => decide (l = dataTag ++ doneTag))) := by
  induction chunks generalizing st with
  | nil =>
      rw [List.flatten_nil, List.append_nil, splitLines_no_nl st.remainder hr]
      simp
  | cons ch rest ih =>
      obtain ⟨f1, f2, f3⟩ := foldLines_done parse
        (splitLines (st.remainder ++ ch)).dropLast st
      have hout : (stepChunk parse st ch).out =
          ((splitLines (st.remainder ++ ch)).dropLast.foldl (stepLine parse) st).out := rfl
      have hds : (stepChunk parse st ch).doneSent =
          ((splitLines (st.remainder ++ ch)).dropLast.foldl (stepLine parse) st).doneSent :=
        rfl
      have hrem : (stepChunk parse st ch).remainder =
          lastLine (splitLines (st.remainder ++ ch)) := rfl
      obtain ⟨ih1, ih2⟩ := ih (stepChunk parse st ch)
        (by rw [hrem]; exact no_nl_lastLine_splitLines _)
      -- split algebra: the complete lines of the whole stream are the
      -- complete lines of this read plus those of the rest
      have hsplit : (splitLines (st.remainder ++ (ch :: rest).flatten)).dropLast =
          (splitLines (st.remainder ++ ch)).dropLast ++
            (splitLines ((stepChunk parse st ch).remainder ++ rest.flatten)).dropLast := by
        rw [hrem, List.flatten_cons, ← List.append_assoc, splitLines_append]
        have hB : splitLines (lastLine (splitLines (st.remainder ++ ch)) ++ rest.flatten) =
            consHead (lastLine (splitLines (st.remainder ++ ch)))
              (splitLines rest.flatten) := by
          rw [splitLines_append,
            splitLines_no_nl _ (no_nl_lastLine_splitLines (st.remainder ++ ch)),
            glue_single]
        rw [hB, glue]
        rw [List.dropLast_append_of_ne_nil _ (consHead_ne_nil _ _)]
      rw [List.foldl_cons]
      constructor
      · rw [ih1, hout, f1, hsplit, List.filter_append, List.length_append]
        omega
      · rw [ih2, hds, f2, hsplit, List.any_append, Bool.or_assoc]

/-- **C7 (amended).** The Claude→Chat streaming translation forwards every
complete upstream `data: [DONE]` line and appends one of its own exactly
when the upstream emitted none: the number of `data: [DONE]` writes is
`max 1 k` where `k` is the number of complete upstream `data: [DONE]`
lines — exactly one whenever the upstream emitted at most one, but `k`
(not one) when the upstream emitted several. -/
theorem streamClaudeToChat_done_spec (parse : List Char → Option ClaudeEvent)
    (chunks : List (List Char)) :
    (streamClaudeToChat parse chunks).out.count ChatOut.done =
      max 1 (upstreamDoneLines chunks) := by
  obtain ⟨h1, h2⟩ := foldChunks_done parse chunks
    { doneSent := false, totalUsage := none, remainder := [], out := [] } (by simp)
  simp only [List.nil_append] at h1 h2
  have hcount : (chunks.foldl (stepChunk parse)
      { doneSent := false, totalUsage := none, remainder := [], out := [] }).out.count
        ChatOut.done = upstreamDoneLines chunks := by
    rw [h1, upstreamDoneLines]
    simp
  rw [streamClaudeToChat]
  by_cases hd : (chunks.foldl (stepChunk parse)
      { doneSent := false, totalUsage := none, remainder := [], out := [] }).doneSent
  · rw [if_pos hd, hcount]
    rw [hd] at h2
    have hany : (splitLines chunks.flatten).dropLast.any
        (fun l => decide (l = dataTag ++ doneTag)) = true := by
      have h2' := h2.symm
      simpa using h2'
    rw [List.any_eq_true] at hany
    obtain ⟨x, hx, hxd⟩ := hany
    have hpos : 0 < upstreamDoneLines chunks := by
      rw [upstreamDoneLines]
      have hmem : x ∈ (splitLines chunks.flatten).dropLast.filter
          (fun l => decide (l = dataTag ++ doneTag)) :=
        List.mem_filter.mpr ⟨hx, hxd⟩
      exact List.length_pos.mpr (List.ne_nil_of_mem hmem)
    omega
  · rw [if_neg hd]
    have hany : (splitLines chunks.flatten).dropLast.any
        (fun l => decide (l = dataTag ++ doneTag)) = false := by
      cases hh : (splitLines chunks.flatten).dropLast.any
          (fun l => decide (l = dataTag ++ doneTag)) with
      | false => rfl
      | true =>
          rw [hh] at h2
          rw [h2] at hd
          simp at hd
    have hzero : upstreamDoneLines chunks = 0 := by
      rw [upstreamDoneLines, List.length_eq_zero, List.filter_eq_nil_iff]
      intro a ha
      rw [List.any_eq_false] at hany
      simpa using hany a ha
    dsimp only
    rw [List.count_append, hcount, hzero]
    simp

/-- Parser oracle that never recognises an event; the `[DONE]` handling
happens on the raw line before parsing, so it is irrelevant here. -/
def nullParse : List Char → Option ClaudeEvent := fun _ => none

/-- **C7 counterexample.** An upstream body holding two complete
`data: [DONE]` lines makes the translation write `data: [DONE]` twice —
the dedup flag only suppresses the final self-appended terminator, it does
not deduplicate forwarded upstream terminators. -/
theorem streamClaudeToChat_done_counterexample :
    upstreamDoneLines [("data: [DONE]\ndata: [DONE]\n").toList] = 2 ∧
    (streamClaudeToChat nullParse
      [("data: [DONE]\ndata: [DONE]\n").toList]).out.count ChatOut.done = 2 := by
  decide

/-! ## Chat→Claude request translation (`convertChatToClaudeRequest`, C8) -/

/-- A parsed JSON value (Go `interface{}` after `json.Unmarshal`). -/
inductive JValue : Type
  | str (s : String)
  | num (q : ℚ)
  | jbool (b : Bool)
  | null
  | arr (xs : List JValue)
  | obj (fields : List (String × JValue))

/-- One loop iteration over the Chat `messages` array: a system message
with string content joins the system parts, any other object message is
forwarded with role `user`/`assistant` (anything but `assistant` becomes
`user`), and non-object entries are skipped.  The accumulator carries the
converted messages and the collected system parts. -/
def chatMessageStep (acc : List (List (String × JValue)) × List String) (msg : JValue) :
    List (List (String × JValue)) × List String :=
  match msg with
  | JValue.obj m =>
      let role := match getA m "role" with
        | some (JValue.str r) => r
        | _ => ""
      let content := match getA m "content" with
        | some c => c
        | none => JValue.null
      if role = "system" then
        match content with
        | JValue.str text => (acc.1, acc.2 ++ [text])
        | _ => acc
      else if role = "user" then
        (acc.1 ++ [[("role", JValue.str "user"), ("content", content)]], acc.2)
      else if role = "assistant" then
        (acc.1 ++ [[("role", JValue.str "assistant"), ("content", content)]], acc.2)
      else
        (acc.1 ++ [[("role", JValue.str "user"), ("content", content)]], acc.2)
  | _ => acc

/-- Go `convertChatToClaudeRequest` on the parsed request object: copy the
max-tokens chain (`max_tokens`, else `max_completion_tokens`, else 4096),
`temperature` and `top_p`; move string-content system messages into the
top-level `system` field; convert the remaining messages.  (No other field
of the Chat request — in particular `stop` — is carried over.) -/
def convertChatToClaudeRequest (reqMap : List (String × JValue)) (model : String)
    (isStream : Bool) : List (String × JValue) :=
  let claudeReq : List (String × JValue) :=
    [("model", JValue.str model), ("stream", JValue.jbool isStream)]
  let claudeReq :=
    match getA reqMap "max_tokens" with
    | some v => setA claudeReq "max_tokens" v
    | none =>
        match getA reqMap "max_completion_tokens" with
        | some v => setA claudeReq "max_tokens" v
        | none => setA claudeReq "max_tokens" (JValue.num 4096)
  let claudeReq :=
    match getA reqMap "temperature" with
    | some v => setA claudeReq "temperature" v
    | none => claudeReq
  let claudeReq :=
    match getA reqMap "top_p" with
    | some v => setA claudeReq "top_p" v
    | none => claudeReq
  match getA reqMap "messages" with
  | some (JValue.arr messages) =>
      let folded := messages.foldl chatMessageStep ([], [])
      let claudeReq :=
        if folded.2.length > 0 then
          setA claudeReq "system" (JValue.str (String.intercalate "\n\n" folded.2))
        else claudeReq
      setA claudeReq "messages" (JValue.arr (folded.1.map JValue.obj))
  | _ => claudeReq

theorem getA_ite {κ β : Type} [DecidableEq κ] (c : Prop) [Decidable c]
    (a b : List (κ × β)) (k : κ) :
    getA (if c then a else b) k = if c then getA a k else getA b k := by
  by_cases h : c <;> simp [h]

/-- The concrete Chat request exhibiting the C8 divergence: it carries a
`stop` field, a system message and a user message, and no max-tokens
fields. -/
def chatStopRequest : List (String × JValue) :=
  [("model", JValue.str "gpt-4"),
   ("stop", JValue.arr [JValue.str "END"]),
   ("messages", JValue.arr
     [JValue.obj [("role", JValue.str "system"), ("content", JValue.str "be brief")],
      JValue.obj [("role", JValue.str "user"), ("content", JValue.str "hi")]])]

/-- **C8.** The system-message and max-tokens parts of the claim hold, but
the Chat `stop` field is never mapped to Claude `stop_sequences`: on every
input the converted request has no `stop_sequences` key (and no `stop`
key), although the repository's Chat-channel design document lists
`stop` → `stop_sequences` in its field-mapping table. -/
theorem convertChatToClaude_drops_stop :
    (∀ (reqMap : List (String × JValue)) (mdl : String) (streamFlag : Bool),
      getA (convertChatToClaudeRequest reqMap mdl streamFlag) "stop_sequences" = none ∧
      getA (convertChatToClaudeRequest reqMap mdl streamFlag) "stop" = none) ∧
    getA (convertChatToClaudeRequest chatStopRequest "claude-3" false) "max_tokens" =
      some (JValue.num 4096) ∧
    getA (convertChatToClaudeRequest chatStopRequest "claude-3" false) "system" =
      some (JValue.str "be brief") ∧
    getA (convertChatToClaudeRequest chatStopRequest "claude-3" false) "messages" =
      some (JValue.arr
        [JValue.obj [("role", JValue.str "user"), ("content", JValue.str "hi")]]) := by
  refine ⟨?_, rfl, rfl, rfl⟩
  intro reqMap mdl streamFlag
  constructor <;>
    · unfold convertChatToClaudeRequest
      repeat' split
      all_goals simp [getA_setA_ne, getA, getA_ite]

/-! ## Remaining metrics finalize operations (used by the executor, C2) -/

/-- Go `types.Usage` (the token fields the engine reads). -/
structure Usage where
  inputTokens : Int
  outputTokens : Int
  cacheCreationInputTokens : Int
  cacheCreation5mInputTokens : Int
  cacheCreation1hInputTokens : Int
  cacheReadInputTokens : Int
deriving Repr, DecidableEq

/-- Token extraction shared by the success paths: cache-creation falls
back to the 5m/1h split when the aggregate field is absent (≤ 0). -/
def usageTokens (usage : Option Usage) : Int × Int × Int × Int :=
  match usage with
  | none => (0, 0, 0, 0)
  | some u =>
      let cc := if u.cacheCreationInputTokens ≤ 0
        then u.cacheCreation5mInputTokens + u.cacheCreation1hInputTokens
        else u.cacheCreationInputTokens
      (u.inputTokens, u.outputTokens, cc, u.cacheReadInputTokens)

/-- Go `recordSuccessWithUsageLocked` (the degraded path of
`RecordRequestFinalizeSuccess` when the reserved slot is gone). -/
def recordSuccessWithUsageLocked (m : MetricsManager) (baseURL apiKey : String)
    (usage : Option Usage) (now : Int) : MetricsManager :=
  let km := getOrCreateKey m baseURL apiKey
  let t := usageTokens usage
  let km := { km with
    requestCount := km.requestCount + 1
    successCount := km.successCount + 1
    consecutiveFailures := 0
    lastSuccessAt := some now
    circuitBrokenAt := none
    recentResults := appendToWindowKey m.windowSize km.recentResults true }
  let km := { km with
    requestHistory := km.requestHistory ++
      [{ model := "", timestamp := now, success := true, inputTokens := t.1
         outputTokens := t.2.1, cacheCreationInputTokens := t.2.2.1
         cacheReadInputTokens := t.2.2.2 }] }
  let km := cleanupHistory now km
  { m with
    keyMetrics := setA m.keyMetrics (generateMetricsKey baseURL apiKey) km
    storeQueue := m.storeQueue ++
      [{ metricsKey := km.metricsKey, baseURL := baseURL, keyMask := km.keyMask
         timestamp := now, success := true, inputTokens := t.1, outputTokens := t.2.1
         cacheCreationTokens := t.2.2.1, cacheReadTokens := t.2.2.2
         apiType := m.apiType, model := "" }] }

/-- Go `recordFailureLocked` (the degraded path of
`RecordRequestFinalizeFailure` when the reserved slot is gone). -/
def recordFailureLocked (m : MetricsManager) (baseURL apiKey : String)
    (now : Int) : MetricsManager :=
  let km := getOrCreateKey m baseURL apiKey
  let km := { km with
    requestCount := km.requestCount + 1
    failureCount := km.failureCount + 1
    consecutiveFailures := km.consecutiveFailures + 1
    lastFailureAt := some now
    recentResults := appendToWindowKey m.windowSize km.recentResults false }
  let km := if km.circuitBrokenAt = none ∧ isKeyCircuitBroken m km then
      { km with circuitBrokenAt := some now }
    else km
  let km := { km with
    requestHistory := km.requestHistory ++
      [{ model := "", timestamp := now, success := false, inputTokens := 0
         outputTokens := 0, cacheCreationInputTokens := 0, cacheReadInputTokens := 0 }] }
  let km := cleanupHistory now km
  { m with
    keyMetrics := setA m.keyMetrics (generateMetricsKey baseURL apiKey) km
    storeQueue := m.storeQueue ++
      [{ metricsKey := km.metricsKey, baseURL := baseURL, keyMask := km.keyMask
         timestamp := now, success := false, inputTokens := 0, outputTokens := 0
         cacheCreationTokens := 0, cacheReadTokens := 0
         apiType := m.apiType, model := "" }] }

/-- Go `RecordRequestFinalizeSuccess`: rewrite the reserved slot with the
final usage, bump the success counters, clear the circuit, append to the
window and enqueue a persistent record; degrade gracefully when the slot
is gone. -/
def recordRequestFinalizeSuccess (m : MetricsManager) (baseURL apiKey : String)
    (requestID : Nat) (usage : Option Usage) (now : Int) : MetricsManager :=
  let mk := generateMetricsKey baseURL apiKey
  match getA m.keyMetrics mk with
  | none => recordSuccessWithUsageLocked m baseURL apiKey usage now
  | some km =>
      match getA km.pendingHistoryIdx requestID with
      | none => recordSuccessWithUsageLocked m baseURL apiKey usage now
      | some idx =>
          if km.requestHistory.length ≤ idx then
            recordSuccessWithUsageLocked m baseURL apiKey usage now
          else
            let t := usageTokens usage
            let km := { km with
              pendingHistoryIdx := km.pendingHistoryIdx.filter (fun p => p.1 ≠ requestID)
              requestCount := km.requestCount + 1
              successCount := km.successCount + 1
              consecutiveFailures := 0
              lastSuccessAt := some now
              circuitBrokenAt := none
              recentResults := appendToWindowKey m.windowSize km.recentResults true
              requestHistory := updateAt km.requestHistory idx
                (fun r => { r with
                  success := true, inputTokens := t.1, outputTokens := t.2.1
                  cacheCreationInputTokens := t.2.2.1, cacheReadInputTokens := t.2.2.2 }) }
            let defaultRec : RequestRecord :=
              { model := "", timestamp := now, success := true, inputTokens := 0
                outputTokens := 0, cacheCreationInputTokens := 0
                cacheReadInputTokens := 0 }
            let rec' := km.requestHistory.getD idx defaultRec
            { m with
              keyMetrics := setA m.keyMetrics mk km
              storeQueue := m.storeQueue ++
                [{ metricsKey := km.metricsKey, baseURL := baseURL, keyMask := km.keyMask
                   timestamp := rec'.timestamp, success := true, inputTokens := t.1
                   outputTokens := t.2.1, cacheCreationTokens := t.2.2.1
                   cacheReadTokens := t.2.2.2, apiType := m.apiType
                   model := rec'.model }] }

/-- Go `RecordRequestFinalizeFailure`: symmetric failure finalize,
including the circuit-entry check; degrades gracefully when the slot is
gone. -/
def recordRequestFinalizeFailure (m : MetricsManager) (baseURL apiKey : String)
    (requestID : Nat) (now : Int) : MetricsManager :=
  let mk := generateMetricsKey baseURL apiKey
  match getA m.keyMetrics mk with
  | none => recordFailureLocked m baseURL apiKey now
  | some km =>
      match getA km.pendingHistoryIdx requestID with
      | none => recordFailureLocked m baseURL apiKey now
      | some idx =>
          if km.requestHistory.length ≤ idx then
            recordFailureLocked m baseURL apiKey now
          else
            let km := { km with
              pendingHistoryIdx := km.pendingHistoryIdx.filter (fun p => p.1 ≠ requestID)
              requestCount := km.requestCount + 1
              failureCount := km.failureCount + 1
              consecutiveFailures := km.consecutiveFailures + 1
              lastFailureAt := some now
              recentResults := appendToWindowKey m.windowSize km.recentResults false }
            let km := if km.circuitBrokenAt = none ∧ isKeyCircuitBroken m km then
                { km with circuitBrokenAt := some now }
              else km
            let km := { km with
              requestHistory := updateAt km.requestHistory idx
                (fun r => { r with
                  success := false, inputTokens := 0, outputTokens := 0
                  cacheCreationInputTokens := 0, cacheReadInputTokens := 0 }) }
            let defaultRec : RequestRecord :=
              { model := "", timestamp := now, success := false, inputTokens := 0
                outputTokens := 0, cacheCreationInputTokens := 0
                cacheReadInputTokens := 0 }
            let rec' := km.requestHistory.getD idx defaultRec
            { m with
              keyMetrics := setA m.keyMetrics mk km
              storeQueue := m.storeQueue ++
                [{ metricsKey := km.metricsKey, baseURL := baseURL, keyMask := km.keyMask
                   timestamp := rec'.timestamp, success := false, inputTokens := 0
                   outputTokens := 0, cacheCreationTokens := 0, cacheReadTokens := 0
                   apiType := m.apiType, model := rec'.model }] }

/-- Go `RecordRequestStart`: bump the in-flight counter. -/
def recordRequestStart (m : MetricsManager) (baseURL apiKey : String) : MetricsManager :=
  let km := getOrCreateKey m baseURL apiKey
  let km := { km with activeRequests := km.activeRequests + 1 }
  { m with keyMetrics := setA m.keyMetrics (generateMetricsKey baseURL apiKey) km }

/-- Go `RecordRequestEnd`: decrement the in-flight counter when positive. -/
def recordRequestEnd (m : MetricsManager) (baseURL apiKey : String) : MetricsManager :=
  match getA m.keyMetrics (generateMetricsKey baseURL apiKey) with
  | none => m
  | some km =>
      let km := { km with activeRequests :=
        if 0 < km.activeRequests then km.activeRequests - 1 else km.activeRequests }
      { m with keyMetrics := setA m.keyMetrics (generateMetricsKey baseURL apiKey) km }

/-- Go `AreAllKeysSuspended` (`handlers/common`): force-probe entry test. -/
def areAllKeysSuspended (m : MetricsManager) (baseURL : String)
    (apiKeys : List String) : Bool :=
  if apiKeys = [] then false
  else apiKeys.all (fun k => shouldSuspendKey m baseURL k)

/-! ## Failover executor (`TryUpstreamWithAllKeys`, C2)

Embeds the current executor (the copy calling the three-argument
`RecordRequestConnected` and returning immediately on a build error).
The upstream's behaviour and the caller-provided callbacks are an
environment of pure functions keyed by (baseURL, apiKey); the channel-log
store is omitted (an optional sink never read by the core). -/

/-- Outcome of `SendRequest` for one attempt. -/
inductive SendOutcome : Type
  | cancel
  | sendErr
  | response (status : Nat) (body : String)
deriving Repr, DecidableEq

/-- Error kinds carried in the executor's `lastError` / return error. -/
inductive ExecErr : Type
  | buildFailed
  | noKey
  | sendFailed
  | canceled
  | upstreamStatus (status : Nat)
  | handleFailed
deriving Repr, DecidableEq

/-- Error classes distinguished after the handle-success callback. -/
inductive HandleErrKind : Type
  | cancel
  | emptyOrInvalid
  | other
deriving Repr, DecidableEq

/-- Result of the handle-success callback (which may return a usage even
alongside an error). -/
inductive HandleOutcome : Type
  | ok (usage : Option Usage)
  | err (usage : Option Usage) (kind : HandleErrKind)
deriving Repr, DecidableEq

/-- The callbacks and upstream behaviour for one executor run.
`redirectedModel` is `config.RedirectModel(model, upstream)` as computed
by the caller (the rename table is outside the claims). -/
structure ExecEnv where
  nextKey : List String → Option String
  build : String → String → Bool
  send : String → String → SendOutcome
  classify : Nat → String → Bool × Bool
  handle : String → String → HandleOutcome
  redirectedModel : String
  now : Int

/-- All state the executor can mutate: the metrics engine, the failed-key
cache, and the callback side effects (URL marks, deprioritizations, and
bodies passed through to the client). -/
structure ExecState where
  metrics : MetricsManager
  cfg : ConfigManager
  urlFailures : List String
  urlSuccesses : List String
  deprioritized : List String
  clientWrites : List (Nat × String)
deriving Repr, DecidableEq

/-- The executor's return tuple
`(handled, successKey, successBaseURLIdx, failoverErr, usage, lastError)`. -/
structure ExecResult where
  handled : Bool
  successKey : String
  successBaseURLIdx : Nat
  failoverErr : Option (Nat × String)
  usage : Option Usage
  lastError : Option ExecErr
deriving Repr, DecidableEq

/-- The all-zero result of the executor's early guard returns. -/
def emptyExecResult : ExecResult :=
  { handled := false, successKey := "", successBaseURLIdx := 0
    failoverErr := none, usage := none, lastError := none }

/-- Go's `deprioritizeCandidates[apiKey] = true` (set insert). -/
def addCandidate (dc : List String) (k : String) : List String :=
  if dc.contains k then dc else dc ++ [k]

/-- The inner key loop (`for attempt := 0; attempt < maxRetries`) of
`TryUpstreamWithAllKeys` at one base URL.  `Sum.inl` is a `return` out of
the whole executor; `Sum.inr` carries the state, the candidate set and the
last errors to the next base URL. -/
def runKeys (env : ExecEnv) (apiType : String) (forceProbe : Bool)
    (currentBaseURL : String) (originalIdx : Nat) :
    ExecState → List String → List String → Option (Nat × String) → Option ExecErr →
    Nat → (ExecResult × ExecState) ⊕
      (ExecState × List String × Option (Nat × String) × Option ExecErr)
  | st, _, dc, lastFailover, lastError, 0 => Sum.inr (st, dc, lastFailover, lastError)
  | st, failedKeys, dc, lastFailover, lastError, fuel + 1 =>
      match env.nextKey failedKeys with
      | none => Sum.inr (st, dc, lastFailover, some ExecErr.noKey)
      | some apiKey =>
          if !forceProbe && shouldSuspendKey st.metrics currentBaseURL apiKey then
            runKeys env apiType forceProbe currentBaseURL originalIdx
              st (failedKeys ++ [apiKey]) dc lastFailover lastError fuel
          else if env.build currentBaseURL apiKey = false then
            Sum.inl ({ handled := false, successKey := "", successBaseURLIdx := 0
                       failoverErr := none, usage := none
                       lastError := some ExecErr.buildFailed }, st)
          else
            let mStart := recordRequestStart st.metrics currentBaseURL apiKey
            let st := { st with metrics := mStart }
            let connected := recordRequestConnectedAt st.metrics currentBaseURL apiKey env.redirectedModel env.now env.now
            let st := { st with metrics := connected.1 }
            let requestID := connected.2
            match env.send currentBaseURL apiKey with
            | SendOutcome.cancel =>
                let m1 := recordRequestFinalizeClientCancel st.metrics currentBaseURL apiKey requestID
                let m2 := recordRequestEnd m1 currentBaseURL apiKey
                let st := { st with metrics := m2 }
                Sum.inl ({ handled := true, successKey := "", successBaseURLIdx := 0
                           failoverErr := none, usage := none
                           lastError := some ExecErr.canceled }, st)
            | SendOutcome.sendErr =>
                let cfg1 := markKeyAsFailed st.cfg apiKey apiType env.now
                let m1 := recordRequestFinalizeFailure st.metrics currentBaseURL apiKey requestID env.now
                let m2 := recordRequestEnd m1 currentBaseURL apiKey
                let st := { st with cfg := cfg1, metrics := m2, urlFailures := st.urlFailures ++ [currentBaseURL] }
                runKeys env apiType forceProbe currentBaseURL originalIdx
                  st (failedKeys ++ [apiKey]) dc lastFailover
                  (some ExecErr.sendFailed) fuel
            | SendOutcome.response status body =>
                if status < 200 ∨ 300 ≤ status then
                  let cls := env.classify status body
                  if cls.1 then
                    let cfg1 := markKeyAsFailed st.cfg apiKey apiType env.now
                    let m1 := recordRequestFinalizeFailure st.metrics currentBaseURL apiKey requestID env.now
                    let m2 := recordRequestEnd m1 currentBaseURL apiKey
                    let st := { st with cfg := cfg1, metrics := m2, urlFailures := st.urlFailures ++ [currentBaseURL] }
                    let dc := if cls.2 then addCandidate dc apiKey else dc
                    runKeys env apiType forceProbe currentBaseURL originalIdx
                      st (failedKeys ++ [apiKey]) dc (some (status, body))
                      (some (ExecErr.upstreamStatus status)) fuel
                  else
                    let m1 := recordRequestFinalizeFailure st.metrics currentBaseURL apiKey requestID env.now
                    let m2 := recordRequestEnd m1 currentBaseURL apiKey
                    let st := { st with metrics := m2, clientWrites := st.clientWrites ++ [(status, body)] }
                    Sum.inl ({ handled := true, successKey := "", successBaseURLIdx := 0
                               failoverErr := none, usage := none, lastError := none }, st)
                else
                  let st := if dc.length > 0 then
                      { st with deprioritized := st.deprioritized ++ dc }
                    else st
                  let st := { st with urlSuccesses := st.urlSuccesses ++ [currentBaseURL] }
                  match env.handle currentBaseURL apiKey with
                  | HandleOutcome.ok usage =>
                      let m1 := recordRequestFinalizeSuccess st.metrics currentBaseURL apiKey requestID usage env.now
                      let m2 := recordRequestEnd m1 currentBaseURL apiKey
                      let st := { st with metrics := m2 }
                      Sum.inl ({ handled := true, successKey := apiKey
                                 successBaseURLIdx := originalIdx, failoverErr := none
                                 usage := usage, lastError := none }, st)
                  | HandleOutcome.err usage kind =>
                      match kind with
                      | HandleErrKind.cancel =>
                          let m1 := recordRequestFinalizeClientCancel st.metrics currentBaseURL apiKey requestID
                          let m2 := recordRequestEnd m1 currentBaseURL apiKey
                          let st := { st with metrics := m2 }
                          Sum.inl ({ handled := true, successKey := ""
                                     successBaseURLIdx := 0, failoverErr := none
                                     usage := usage
                                     lastError := some ExecErr.canceled }, st)
                      | HandleErrKind.emptyOrInvalid =>
                          let cfg1 := markKeyAsFailed st.cfg apiKey apiType env.now
                          let m1 := recordRequestFinalizeFailure st.metrics currentBaseURL apiKey requestID env.now
                          let m2 := recordRequestEnd m1 currentBaseURL apiKey
                          let st := { st with cfg := cfg1, metrics := m2, urlFailures := st.urlFailures ++ [currentBaseURL] }
                          runKeys env apiType forceProbe currentBaseURL originalIdx
                            st (failedKeys ++ [apiKey]) dc lastFailover
                            (some ExecErr.handleFailed) fuel
                      | HandleErrKind.other =>
                          let cfg1 := markKeyAsFailed st.cfg apiKey apiType env.now
                          let m1 := recordRequestFinalizeFailure st.metrics currentBaseURL apiKey requestID env.now
                          let m2 := recordRequestEnd m1 currentBaseURL apiKey
                          let st := { st with cfg := cfg1, metrics := m2 }
                          Sum.inl ({ handled := true, successKey := ""
                                     successBaseURLIdx := 0, failoverErr := none
                                     usage := usage
                                     lastError := some ExecErr.handleFailed }, st)

/-- The outer base-URL loop of `TryUpstreamWithAllKeys`. -/
def runURLs (env : ExecEnv) (apiType : String) (upstream : UpstreamConfig)
    (forceProbe : Bool) :
    ExecState → List String → Option (Nat × String) → Option ExecErr →
    List (String × Nat) → ExecResult × ExecState
  | st, _, lastFailover, lastError, [] =>
      ({ handled := false, successKey := "", successBaseURLIdx := 0
         failoverErr := lastFailover, usage := none, lastError := lastError }, st)
  | st, dc, lastFailover, lastError, (url, originalIdx) :: rest =>
      match runKeys env apiType forceProbe url originalIdx
          st [] dc lastFailover lastError upstream.apiKeys.length with
      | Sum.inl r => r
      | Sum.inr (st', dc', lf', le') =>
          runURLs env apiType upstream forceProbe st' dc' lf' le' rest

/-- Go `TryUpstreamWithAllKeys`: guards, force-probe detection on the
first sorted URL, then the URL × key loops. -/
def tryUpstreamWithAllKeys (env : ExecEnv) (apiType : String)
    (upstream : UpstreamConfig) (urlResults : List (String × Nat))
    (st : ExecState) : ExecResult × ExecState :=
  if upstream.apiKeys = [] then (emptyExecResult, st)
  else
    match urlResults with
    | [] => (emptyExecResult, st)
    | (url0, idx0) :: rest =>
        let forceProbe := areAllKeysSuspended st.metrics url0 upstream.apiKeys
        runURLs env apiType upstream forceProbe st [] none none
          ((url0, idx0) :: rest)

/-- C2: when the build-request callback fails on the first usable key (the
circuit check did not skip it), `TryUpstreamWithAllKeys` returns
immediately with `handled = false` and the wrapped build error, and the
whole state — metrics engine (counters, windows, history, persistence
queue), failed-key cache, URL marks, deprioritizations and client
writes — is exactly the input state: no further key or base URL is
tried. -/
theorem tryUpstream_buildError_spec (env : ExecEnv) (apiType : String)
    (upstream : UpstreamConfig) (url0 : String) (idx0 : Nat)
    (rest : List (String × Nat)) (st : ExecState) (k0 : String)
    (hkeys : upstream.apiKeys ≠ [])
    (hnext : env.nextKey [] = some k0)
    (hnoskip : areAllKeysSuspended st.metrics url0 upstream.apiKeys = true ∨
      shouldSuspendKey st.metrics url0 k0 = false)
    (hbuild : env.build url0 k0 = false) :
    tryUpstreamWithAllKeys env apiType upstream ((url0, idx0) :: rest) st =
      ({ handled := false, successKey := "", successBaseURLIdx := 0
         failoverErr := none, usage := none
         lastError := some ExecErr.buildFailed }, st) := by
  obtain ⟨n, hn⟩ : ∃ n, upstream.apiKeys.length = n + 1 := by
    cases h : upstream.apiKeys with
    | nil => exact absurd h hkeys
    | cons a as => exact ⟨as.length, by simp⟩
  have hcond : (!areAllKeysSuspended st.metrics url0 upstream.apiKeys &&
      shouldSuspendKey st.metrics url0 k0) = false := by
    rcases hnoskip with hfp | hsk
    · rw [hfp]
      rfl
    · rw [hsk]
      simp
  unfold tryUpstreamWithAllKeys
  rw [if_neg hkeys]
  show runURLs env apiType upstream
      (areAllKeysSuspended st.metrics url0 upstream.apiKeys) st [] none none
      ((url0, idx0) :: rest) = _
  rw [runURLs, hn, runKeys]
  simp only [hnext]
  have hcond' : ¬((!areAllKeysSuspended st.metrics url0 upstream.apiKeys &&
      shouldSuspendKey st.metrics url0 k0) = true) := by
    rw [hcond]
    simp
  rw [if_neg hcond', if_pos hbuild]

/-- A concrete run whose build callback always fails. -/
def buildFailEnv : ExecEnv :=
  { nextKey := fun _ => some "k1"
    build := fun _ _ => false
    send := fun _ _ => SendOutcome.sendErr
    classify := fun _ _ => (true, false)
    handle := fun _ _ => HandleOutcome.ok none
    redirectedModel := "m"
    now := 0 }

/-- A fresh executor state: empty metrics engine and failed-key cache. -/
def buildFailState : ExecState :=
  { metrics := { keyMetrics := [], windowSize := 10, failureThreshold := 2
                 nextRequestID := 0, apiType := "claude", storeQueue := [] }
    cfg := { failedKeysCache := [], keyRecoveryTime := 600, maxFailureCount := 3 }
    urlFailures := [], urlSuccesses := [], deprioritized := [], clientWrites := [] }

/-- A single-key, single-URL upstream for the build-failure run. -/
def buildFailUpstream : UpstreamConfig :=
  { name := "ch", baseURL := "u", baseURLs := ["u"], apiKeys := ["k1"]
    serviceType := "claude", priority := 0, status := "active"
    promotionUntil := none }

/-- Concrete instance of the build-error theorem: one key, one URL, fresh
state; the executor returns the build error and the state unchanged. -/
theorem tryUpstream_buildError_spec_witness :
    (buildFailUpstream.apiKeys ≠ [] ∧
      buildFailEnv.nextKey [] = some "k1" ∧
      shouldSuspendKey buildFailState.metrics "u" "k1" = false ∧
      buildFailEnv.build "u" "k1" = false) ∧
    tryUpstreamWithAllKeys buildFailEnv "claude" buildFailUpstream
        [("u", 0)] buildFailState =
      ({ handled := false, successKey := "", successBaseURLIdx := 0
         failoverErr := none, usage := none
         lastError := some ExecErr.buildFailed }, buildFailState) :=
  ⟨⟨by decide, rfl, by decide, rfl⟩,
    tryUpstream_buildError_spec buildFailEnv "claude" buildFailUpstream
      "u" 0 [] buildFailState "k1" (by decide) rfl (Or.inr (by decide)) rfl⟩

end CCX
